import Mathlib

/-! Sources phase resolver (`pbxbuild::Phase::SourcesResolver`)

A shallow embedding of `Sources/pbxbuild/Phase/SourcesResolver.cpp`:
the helper `CreateCompilation` and the factory `SourcesResolver::Create`.

The C++ code mutates four locals while it walks the build files of the phase
once per (variant, architecture) pair: the shared `CompilationInfo`, the set of
precompiled-header hashes already seen, the pair-local invocation vector and
the global invocation vector.  Here they are fields of explicit state records
passed from one step to the next.

Every state record also has a ghost field `trace`: the calls made to the
collaborating classes (resolvers, the file-reference resolver, the build-rule
table, the warning stream), in program order, each with its arguments and, for
a call that returns an invocation, with the returned invocation.  The trace
does not influence any computed value; erasing it leaves the value the C++
function returns.
-/

namespace pbxbuild

/-! ## Data model -/

/-- Kind of a project group item (`pbxproj::PBX::GroupItem::Type`). -/
inductive GroupItemType where
  | kTypeGroup
  | kTypeFileReference
  | kTypeVariantGroup
  | kTypeVersionGroup
deriving DecidableEq, Repr

/-- A project group item (`pbxproj::PBX::GroupItem`) with its `type()`; a
`FileReference` is a group item whose `type` is `kTypeFileReference`.  The
class is declared outside the sources; `path` stands for the rest of the
item. -/
structure GroupItem where
  type : GroupItemType
  path : String
deriving DecidableEq, Repr

/-- A build file of a phase (`pbxproj::PBX::BuildFile`).  The C++ code handles
build files through shared pointers and keys maps on the pointer; `id` stands
for that object identity, so equal records are the same object. -/
structure BuildFile where
  id : Nat
  fileRef : Option GroupItem
  compilerFlags : List String
deriving DecidableEq, Repr

/-- The sources build phase (`pbxproj::PBX::SourcesBuildPhase`): its ordered
build files. -/
structure SourcesBuildPhase where
  files : List BuildFile
deriving DecidableEq, Repr

/-- A file type specification (`pbxspec::PBX::FileType`), reduced to the
identifier the resolver prints. -/
structure FileType where
  identifier : String
deriving DecidableEq, Repr

/-- A build file resolved to a path and a file type
(`pbxbuild::TypeResolvedFile`). -/
structure TypeResolvedFile where
  filePath : String
  fileType : FileType
deriving DecidableEq, Repr

/-- A tool specification (`pbxspec::PBX::Tool`), reduced to its identifier. -/
structure Tool where
  identifier : String
deriving DecidableEq, Repr

/-- A matched build rule (`pbxbuild::TargetBuildRules::BuildRule`): an optional
tool and a script body. -/
structure BuildRule where
  tool : Option Tool
  script : String
deriving DecidableEq, Repr

/-- Modelled from the spec: one override level of build settings
(`pbxsetting::Level` is not among the sources), a list of setting names with
their values. -/
structure Level where
  settings : List (String × String)
deriving DecidableEq, Repr

/-- Modelled from the spec: the settings environment (`pbxsetting::Environment`
is not among the sources), a layered key-value lookup in which new layers can
be pushed in front without mutating prior layers.  The front of each list is
the front-most layer. -/
structure Environment where
  levels : List Level
  defaultLevels : List Level
deriving DecidableEq, Repr

/-- Modelled from the spec: `Environment::insertFront(level, isDefault)` pushes
a layer in front of the layers already there and leaves them as they are. -/
def Environment.insertFront (e : Environment) (level : Level) (isDefault : Bool) :
    Environment :=
  if isDefault then
    { levels := e.levels, defaultLevels := level :: e.defaultLevels }
  else
    { levels := level :: e.levels, defaultLevels := e.defaultLevels }

/-- Modelled from the spec: a tool invocation (`pbxbuild::ToolInvocation`), an
opaque unit of work with an executable, an argument list, a working directory
and input and output paths. -/
structure ToolInvocation where
  executable : String
  arguments : List String
  workingDirectory : String
  inputs : List String
  outputs : List String
deriving DecidableEq, Repr

/-- Modelled from the spec: the descriptor of the headermaps of a pass
(`Tool::HeadermapInfo` is not among the sources), the paths of the headermap
artifacts that every compilation of the pass consumes. -/
structure HeadermapInfo where
  systemHeadermapFiles : List String
  userHeadermapFiles : List String
deriving DecidableEq, Repr

/-- Modelled from the spec: the search directories of a pass
(`Tool::SearchPaths` is not among the sources): include, framework and library
search directories. -/
structure SearchPaths where
  headerSearchPaths : List String
  userHeaderSearchPaths : List String
  frameworkSearchPaths : List String
  librarySearchPaths : List String
deriving DecidableEq, Repr

/-- Modelled from the spec: the value descriptor of one precompiled-header
build (`Tool::PrecompiledHeaderInfo` is not among the sources).  Its
deterministic content hash, `hash()` in the C++ code, is computed from it by
`Collaborators.precompiledHeaderHash`. -/
structure PrecompiledHeaderInfo where
  prefixHeader : String
  dialect : String
  arguments : List String
deriving DecidableEq, Repr

/-- The accumulator shared by all compilations of a pass
(`Tool::CompilationInfo`), with the three accessors the resolver reads.
`linkerArguments` is an unordered set of strings in the C++ code; the resolver
only copies it. -/
structure CompilationInfo where
  precompiledHeaderInfo : Option PrecompiledHeaderInfo
  linkerDriver : String
  linkerArguments : List String
deriving DecidableEq, Repr

/-- The default-constructed `CompilationInfo` of line 126. -/
def CompilationInfo.empty : CompilationInfo :=
  { precompiledHeaderInfo := none, linkerDriver := "", linkerArguments := [] }

/-- The default-constructed `HeadermapInfo` of line 146. -/
def HeadermapInfo.empty : HeadermapInfo :=
  { systemHeadermapFiles := [], userHeadermapFiles := [] }

/-- Modelled from the spec: the target being built (`pbxproj::PBX::Target` is
not among the sources); the resolver only passes it to the headermap
resolver. -/
structure Target where
  name : String
deriving DecidableEq, Repr

/-- Modelled from the spec: the build environment
(`pbxbuild::BuildEnvironment` is not among the sources); `Create` reads it into
a local that it never uses. -/
structure BuildEnvironment where
  baseEnvironment : Environment
deriving DecidableEq, Repr

/-- The target environment (`pbxbuild::TargetEnvironment`), with the accessors
the resolver calls.  `buildRules` is `buildRules().resolve(file)` and
`buildFileDisambiguation` is the lookup in the disambiguation map. -/
structure TargetEnvironment where
  workingDirectory : String
  environment : Environment
  variants : List String
  architectures : List String
  buildRules : TypeResolvedFile → Option BuildRule
  buildFileDisambiguation : BuildFile → Option String

/-- The phase environment (`pbxbuild::Phase::PhaseEnvironment`). -/
structure PhaseEnvironment where
  buildEnvironment : BuildEnvironment
  targetEnvironment : TargetEnvironment
  target : Target
  resolveFileReference : GroupItem → Environment → Option TypeResolvedFile

/-- The script strategy (`Tool::ScriptResolver`). -/
structure ScriptResolver where
  invocation : String → BuildRule → Environment → String → ToolInvocation

/-- The compilation strategy (`Tool::ClangResolver`).  `sourceInvocation`
receives the shared `CompilationInfo` by pointer; here it returns the updated
value next to the invocation. -/
structure ClangResolver where
  compiler : Tool
  sourceInvocation :
    TypeResolvedFile → List String → String → HeadermapInfo → SearchPaths →
      CompilationInfo → Environment → String → ToolInvocation × CompilationInfo
  precompiledHeaderInvocation :
    PrecompiledHeaderInfo → Environment → String → ToolInvocation

/-- The headermap resolver (`Tool::HeadermapResolver`).  `invocation` receives
the `HeadermapInfo` by pointer; here it returns the filled value next to the
invocation. -/
structure HeadermapResolver where
  invocation :
    Target → SearchPaths → Environment → String → HeadermapInfo →
      ToolInvocation × HeadermapInfo

/-- The functions of other translation units that `SourcesResolver.cpp` calls
and whose bodies are not part of it; they are parameters of the embedding. -/
structure Collaborators where
  scriptResolverCreate : PhaseEnvironment → Option ScriptResolver
  clangResolverCreate : PhaseEnvironment → Option ClangResolver
  headermapResolverCreate : PhaseEnvironment → Tool → Option HeadermapResolver
  searchPathsCreate : String → Environment → SearchPaths
  variantLevel : String → Level
  architectureLevel : String → Level
  toolInvocationContextCreate :
    Tool → List String → List String → Environment → String → ToolInvocation
  getBaseNameWithoutExtension : String → String
  precompiledHeaderHash : PrecompiledHeaderInfo → String

/-- A call to a collaborator, as recorded in the ghost trace.  A
`resolveFileReference` call is logged with the build file whose reference it
resolves (the build file of the loop iteration at line 153) next to its two
arguments. -/
inductive Call where
  | scriptResolverCreate
  | clangResolverCreate
  | headermapResolverCreate (compiler : Tool)
  | searchPathsCreate (workingDirectory : String) (environment : Environment)
  | headermapInvocation (target : Target) (searchPaths : SearchPaths)
      (environment : Environment) (workingDirectory : String) (result : ToolInvocation)
  | resolveFileReference (buildFile : BuildFile) (fileReference : GroupItem)
      (environment : Environment)
  | buildRulesResolve (file : TypeResolvedFile)
  | sourceInvocation (file : TypeResolvedFile) (compilerFlags : List String)
      (outputBaseName : String) (headermapInfo : HeadermapInfo) (searchPaths : SearchPaths)
      (compilationInfo : CompilationInfo) (environment : Environment)
      (workingDirectory : String) (result : ToolInvocation)
  | precompiledHeaderInvocation (info : PrecompiledHeaderInfo) (environment : Environment)
      (workingDirectory : String) (result : ToolInvocation)
  | toolInvocationContextCreate (tool : Tool) (first : List String) (inputs : List String)
      (environment : Environment) (workingDirectory : String) (result : ToolInvocation)
  | scriptInvocation (filePath : String) (buildRule : BuildRule) (environment : Environment)
      (workingDirectory : String) (result : ToolInvocation)
  | warning (filePath : String) (fileType : String)
deriving DecidableEq, Repr

/-! ## Maps keyed by identity -/

/-- The lookup `m.find(k)` of a map kept as a list of entries with distinct
keys. -/
def mapFind {κ ν : Type} [DecidableEq κ] : List (κ × ν) → κ → Option ν
  | [], _ => none
  | (k0, v) :: rest, k => if k0 = k then some v else mapFind rest k

/-- The insertion `m.insert({k, v})` of `std::map` and `std::unordered_map`:
an entry whose key is already present is left as it is. -/
def mapInsert {κ ν : Type} [DecidableEq κ] (m : List (κ × ν)) (k : κ) (v : ν) :
    List (κ × ν) :=
  match mapFind m k with
  | some _ => m
  | none => m ++ [(k, v)]

/-! ## The resolver -/

/-- The value built by the constructor of `SourcesResolver` (lines 39-51). -/
structure SourcesResolver where
  invocations : List ToolInvocation
  variantArchitectureInvocations : List ((String × String) × List ToolInvocation)
  linkerDriver : String
  linkerArgs : List String
deriving DecidableEq, Repr

/-- The locals that the body of the build-file loop reads and writes:
`compilationInfo`, `precompiledHeaders`, the pair-local `invocations`, and the
ghost trace. -/
structure PassState where
  compilationInfo : CompilationInfo
  precompiledHeaders : List String
  invocations : List ToolInvocation
  trace : List Call
deriving DecidableEq, Repr

/-- The output base name computed at lines 78-84 of `CreateCompilation`. -/
def outputBaseName (X : Collaborators) (targetEnvironment : TargetEnvironment)
    (buildFile : BuildFile) (file : TypeResolvedFile) : String :=
  match targetEnvironment.buildFileDisambiguation buildFile with
  | some name => name
  | none => X.getBaseNameWithoutExtension file.filePath

/-- The static helper `CreateCompilation` (lines 58-113). -/
def CreateCompilation (X : Collaborators) (clangResolver : ClangResolver)
    (buildFile : BuildFile) (file : TypeResolvedFile) (environment : Environment)
    (phaseEnvironment : PhaseEnvironment) (headermapInfo : HeadermapInfo)
    (searchPaths : SearchPaths) (st : PassState) : PassState :=
  let targetEnvironment := phaseEnvironment.targetEnvironment
  let workingDirectory := targetEnvironment.workingDirectory
  let name := outputBaseName X targetEnvironment buildFile file
  let r := clangResolver.sourceInvocation file buildFile.compilerFlags name headermapInfo
    searchPaths st.compilationInfo environment workingDirectory
  let st1 : PassState :=
    { compilationInfo := r.2
      precompiledHeaders := st.precompiledHeaders
      invocations := st.invocations ++ [r.1]
      trace := st.trace ++ [Call.sourceInvocation file buildFile.compilerFlags name
        headermapInfo searchPaths st.compilationInfo environment workingDirectory r.1] }
  match r.2.precompiledHeaderInfo with
  | none => st1
  | some precompiledHeaderInfo =>
    let hash := X.precompiledHeaderHash precompiledHeaderInfo
    if hash ∈ st1.precompiledHeaders then st1
    else
      let pch := clangResolver.precompiledHeaderInvocation precompiledHeaderInfo
        environment workingDirectory
      { compilationInfo := st1.compilationInfo
        precompiledHeaders := hash :: st1.precompiledHeaders
        invocations := st1.invocations ++ [pch]
        trace := st1.trace ++ [Call.precompiledHeaderInvocation precompiledHeaderInfo
          environment workingDirectory pch] }

/-- Whether the pre-pass resolves a build file (line 154): its reference is
present and is a file reference. -/
def fileReferenceOf (buildFile : BuildFile) : Option GroupItem :=
  match buildFile.fileRef with
  | none => none
  | some item => if item.type = GroupItemType.kTypeFileReference then some item else none

/-- The state of the pre-pass of lines 152-165: the `files` map and the ghost
trace. -/
structure ResolveState where
  files : List (BuildFile × TypeResolvedFile)
  trace : List Call
deriving DecidableEq, Repr

/-- The body of the pre-pass loop (lines 153-165) for one build file. -/
def resolveBuildFile (phaseEnvironment : PhaseEnvironment) (rs : ResolveState)
    (buildFile : BuildFile) : ResolveState :=
  match fileReferenceOf buildFile with
  | none => rs
  | some fileReference =>
    let environment := phaseEnvironment.targetEnvironment.environment
    let trace := rs.trace ++ [Call.resolveFileReference buildFile fileReference environment]
    match phaseEnvironment.resolveFileReference fileReference environment with
    | none => { files := rs.files, trace := trace }
    | some file => { files := mapInsert rs.files buildFile file, trace := trace }

/-- The body of the build-file loop (lines 175-215) for one build file. -/
def processBuildFile (X : Collaborators) (scriptResolver : ScriptResolver)
    (clangResolver : ClangResolver) (phaseEnvironment : PhaseEnvironment)
    (headermapInfo : HeadermapInfo) (searchPaths : SearchPaths)
    (files : List (BuildFile × TypeResolvedFile)) (currentEnvironment : Environment)
    (st : PassState) (buildFile : BuildFile) : PassState :=
  let targetEnvironment := phaseEnvironment.targetEnvironment
  let workingDirectory := targetEnvironment.workingDirectory
  match mapFind files buildFile with
  | none => st
  | some file =>
    let st0 : PassState := { st with trace := st.trace ++ [Call.buildRulesResolve file] }
    match targetEnvironment.buildRules file with
    | some buildRule =>
      match buildRule.tool with
      | some tool =>
        if tool.identifier = "com.apple.compilers.gcc" then
          CreateCompilation X clangResolver buildFile file currentEnvironment
            phaseEnvironment headermapInfo searchPaths st0
        else
          let invocation := X.toolInvocationContextCreate tool [] [file.filePath]
            currentEnvironment workingDirectory
          { st0 with
            invocations := st0.invocations ++ [invocation]
            trace := st0.trace ++ [Call.toolInvocationContextCreate tool [] [file.filePath]
              currentEnvironment workingDirectory invocation] }
      | none =>
        if buildRule.script ≠ "" then
          let invocation := scriptResolver.invocation file.filePath buildRule
            currentEnvironment workingDirectory
          { st0 with
            invocations := st0.invocations ++ [invocation]
            trace := st0.trace ++ [Call.scriptInvocation file.filePath buildRule
              currentEnvironment workingDirectory invocation] }
        else st0
    | none =>
      { st0 with trace := st0.trace ++ [Call.warning file.filePath file.fileType.identifier] }

/-- The locals that the variant and architecture loops read and write:
`allInvocations`, `variantArchitectureInvocations`, `compilationInfo`,
`precompiledHeaders`, and the ghost trace. -/
structure CreateState where
  allInvocations : List ToolInvocation
  variantArchitectureInvocations : List ((String × String) × List ToolInvocation)
  compilationInfo : CompilationInfo
  precompiledHeaders : List String
  trace : List Call
deriving DecidableEq, Repr

/-- The settings environment of one (variant, architecture) pair
(lines 169-171). -/
def currentEnvironment (X : Collaborators) (targetEnvironment : TargetEnvironment)
    (variant arch : String) : Environment :=
  (targetEnvironment.environment.insertFront (X.variantLevel variant) false).insertFront
    (X.architectureLevel arch) false

/-- The build-file loop of one pair (lines 173-215), started from an empty
pair-local vector. -/
def processBuildFiles (X : Collaborators) (scriptResolver : ScriptResolver)
    (clangResolver : ClangResolver) (phaseEnvironment : PhaseEnvironment)
    (headermapInfo : HeadermapInfo) (searchPaths : SearchPaths)
    (files : List (BuildFile × TypeResolvedFile)) (buildPhase : SourcesBuildPhase)
    (environment : Environment) (st : PassState) : PassState :=
  buildPhase.files.foldl
    (processBuildFile X scriptResolver clangResolver phaseEnvironment headermapInfo
      searchPaths files environment) st

/-- The body of the architecture loop (lines 169-220) for one pair. -/
def processPair (X : Collaborators) (scriptResolver : ScriptResolver)
    (clangResolver : ClangResolver) (phaseEnvironment : PhaseEnvironment)
    (headermapInfo : HeadermapInfo) (searchPaths : SearchPaths)
    (files : List (BuildFile × TypeResolvedFile)) (buildPhase : SourcesBuildPhase)
    (variant : String) (cs : CreateState) (arch : String) : CreateState :=
  let environment := currentEnvironment X phaseEnvironment.targetEnvironment variant arch
  let st := processBuildFiles X scriptResolver clangResolver phaseEnvironment headermapInfo
    searchPaths files buildPhase environment
    { compilationInfo := cs.compilationInfo
      precompiledHeaders := cs.precompiledHeaders
      invocations := []
      trace := cs.trace }
  { allInvocations := cs.allInvocations ++ st.invocations
    variantArchitectureInvocations :=
      mapInsert cs.variantArchitectureInvocations (variant, arch) st.invocations
    compilationInfo := st.compilationInfo
    precompiledHeaders := st.precompiledHeaders
    trace := st.trace }

/-- The body of the variant loop (lines 167-222) for one variant. -/
def processVariant (X : Collaborators) (scriptResolver : ScriptResolver)
    (clangResolver : ClangResolver) (phaseEnvironment : PhaseEnvironment)
    (headermapInfo : HeadermapInfo) (searchPaths : SearchPaths)
    (files : List (BuildFile × TypeResolvedFile)) (buildPhase : SourcesBuildPhase)
    (cs : CreateState) (variant : String) : CreateState :=
  phaseEnvironment.targetEnvironment.architectures.foldl
    (processPair X scriptResolver clangResolver phaseEnvironment headermapInfo searchPaths
      files buildPhase variant) cs

/-- What `SourcesResolver::Create` returns, with the ghost trace of the calls
it made. -/
structure CreateResult where
  resolver : Option SourcesResolver
  trace : List Call
deriving DecidableEq, Repr

/-- The factory `SourcesResolver::Create` (lines 115-225). -/
def SourcesResolver.Create (X : Collaborators) (phaseEnvironment : PhaseEnvironment)
    (buildPhase : SourcesBuildPhase) : CreateResult :=
  let targetEnvironment := phaseEnvironment.targetEnvironment
  match X.scriptResolverCreate phaseEnvironment with
  | none => { resolver := none, trace := [Call.scriptResolverCreate] }
  | some scriptResolver =>
    match X.clangResolverCreate phaseEnvironment with
    | none => { resolver := none, trace := [Call.scriptResolverCreate, Call.clangResolverCreate] }
    | some clangResolver =>
      match X.headermapResolverCreate phaseEnvironment clangResolver.compiler with
      | none =>
        { resolver := none
          trace := [Call.scriptResolverCreate, Call.clangResolverCreate,
            Call.headermapResolverCreate clangResolver.compiler] }
      | some headermapResolver =>
        let workingDirectory := targetEnvironment.workingDirectory
        let searchPaths := X.searchPathsCreate workingDirectory targetEnvironment.environment
        let h := headermapResolver.invocation phaseEnvironment.target searchPaths
          targetEnvironment.environment workingDirectory HeadermapInfo.empty
        let headermapInvocation := h.1
        let headermapInfo := h.2
        let trace0 : List Call :=
          [Call.scriptResolverCreate, Call.clangResolverCreate,
            Call.headermapResolverCreate clangResolver.compiler,
            Call.searchPathsCreate workingDirectory targetEnvironment.environment,
            Call.headermapInvocation phaseEnvironment.target searchPaths
              targetEnvironment.environment workingDirectory headermapInvocation]
        let rs := buildPhase.files.foldl (resolveBuildFile phaseEnvironment)
          { files := [], trace := trace0 }
        let cs := targetEnvironment.variants.foldl
          (processVariant X scriptResolver clangResolver phaseEnvironment headermapInfo
            searchPaths rs.files buildPhase)
          { allInvocations := [headermapInvocation]
            variantArchitectureInvocations := []
            compilationInfo := CompilationInfo.empty
            precompiledHeaders := []
            trace := rs.trace }
        { resolver := some
            { invocations := cs.allInvocations
              variantArchitectureInvocations := cs.variantArchitectureInvocations
              linkerDriver := cs.compilationInfo.linkerDriver
              linkerArgs := cs.compilationInfo.linkerArguments }
          trace := cs.trace }

end pbxbuild

namespace pbxbuild

/-! ## Reading the trace -/

/-- The invocation returned by a logged call, for the calls whose result the
resolver appends to an invocation vector. -/
def Call.emitted : Call → Option ToolInvocation
  | Call.headermapInvocation _ _ _ _ r => some r
  | Call.sourceInvocation _ _ _ _ _ _ _ _ r => some r
  | Call.precompiledHeaderInvocation _ _ _ r => some r
  | Call.toolInvocationContextCreate _ _ _ _ _ r => some r
  | Call.scriptInvocation _ _ _ _ r => some r
  | _ => none

/-- The calls made by the body of the build-file loop. -/
def Call.isLoopCall : Call → Bool
  | Call.buildRulesResolve _ => true
  | Call.sourceInvocation _ _ _ _ _ _ _ _ _ => true
  | Call.precompiledHeaderInvocation _ _ _ _ => true
  | Call.toolInvocationContextCreate _ _ _ _ _ _ => true
  | Call.scriptInvocation _ _ _ _ _ => true
  | Call.warning _ _ => true
  | _ => false

/-- The file reference passed to a logged `resolveFileReference` call. -/
def Call.resolvedReference : Call → Option GroupItem
  | Call.resolveFileReference _ ref _ => some ref
  | _ => none

/-- The build file for which a logged `resolveFileReference` call was made. -/
def Call.resolvedBuildFile : Call → Option BuildFile
  | Call.resolveFileReference b _ _ => some b
  | _ => none

/-- The result of a logged `HeadermapResolver::invocation` call. -/
def Call.headermapResult : Call → Option ToolInvocation
  | Call.headermapInvocation _ _ _ _ r => some r
  | _ => none

/-- The descriptor passed to a logged `precompiledHeaderInvocation` call. -/
def Call.precompiledHeader : Call → Option PrecompiledHeaderInfo
  | Call.precompiledHeaderInvocation info _ _ _ => some info
  | _ => none

/-- Whether a logged call is a `precompiledHeaderInvocation` call for a
descriptor with the given hash. -/
def Call.isPrecompiledHeaderCall (X : Collaborators) (hash : String) (c : Call) : Bool :=
  match c.precompiledHeader with
  | some info => decide (X.precompiledHeaderHash info = hash)
  | none => false

/-- The (variant, architecture) pairs in iteration order: variant outer,
architecture inner. -/
def pairsOf (variants architectures : List String) : List (String × String) :=
  variants.flatMap (fun v => architectures.map (fun a => (v, a)))

/-- A later state of the build-file loop extends an earlier one by a segment
of loop calls, and its invocation vector by the invocations those calls
returned. -/
def PassState.Extends (s t : PassState) : Prop :=
  ∃ seg : List Call, t.trace = s.trace ++ seg ∧
    t.invocations = s.invocations ++ seg.filterMap Call.emitted ∧
    ∀ c ∈ seg, c.isLoopCall = true

/-- A later state of the pair loops extends an earlier one by a segment of
loop calls, and the global vector by the invocations those calls returned. -/
def CreateState.Extends (s t : CreateState) : Prop :=
  ∃ seg : List Call, t.trace = s.trace ++ seg ∧
    t.allInvocations = s.allInvocations ++ seg.filterMap Call.emitted ∧
    ∀ c ∈ seg, c.isLoopCall = true

/-- The `resolveFileReference` call the pre-pass makes for a build file, if
any. -/
def resolveCall (pe : PhaseEnvironment) (b : BuildFile) : Option Call :=
  (fileReferenceOf b).map
    (fun ref => Call.resolveFileReference b ref pe.targetEnvironment.environment)

/-- The calls `Create` makes before the pre-pass when the three resolvers are
constructed. -/
def setupTrace (X : Collaborators) (pe : PhaseEnvironment) (clang : ClangResolver)
    (hmr : HeadermapResolver) : List Call :=
  let te := pe.targetEnvironment
  let sp := X.searchPathsCreate te.workingDirectory te.environment
  [Call.scriptResolverCreate, Call.clangResolverCreate,
    Call.headermapResolverCreate clang.compiler,
    Call.searchPathsCreate te.workingDirectory te.environment,
    Call.headermapInvocation pe.target sp te.environment te.workingDirectory
      (hmr.invocation pe.target sp te.environment te.workingDirectory HeadermapInfo.empty).1]

/-- The headermap invocation of a pass (lines 146-147). -/
def headermapInvocationOf (X : Collaborators) (pe : PhaseEnvironment)
    (hmr : HeadermapResolver) : ToolInvocation :=
  let te := pe.targetEnvironment
  (hmr.invocation pe.target (X.searchPathsCreate te.workingDirectory te.environment)
    te.environment te.workingDirectory HeadermapInfo.empty).1

/-- The result of the pre-pass (lines 152-165) when the three resolvers are
constructed. -/
def prepass (X : Collaborators) (pe : PhaseEnvironment) (phase : SourcesBuildPhase)
    (clang : ClangResolver) (hmr : HeadermapResolver) : ResolveState :=
  phase.files.foldl (resolveBuildFile pe) { files := [], trace := setupTrace X pe clang hmr }

/-- The headermap descriptor of a pass (lines 146-147). -/
def headermapInfoOf (X : Collaborators) (pe : PhaseEnvironment)
    (hmr : HeadermapResolver) : HeadermapInfo :=
  let te := pe.targetEnvironment
  (hmr.invocation pe.target (X.searchPathsCreate te.workingDirectory te.environment)
    te.environment te.workingDirectory HeadermapInfo.empty).2

/-- The search paths of a pass (line 144). -/
def searchPathsOf (X : Collaborators) (pe : PhaseEnvironment) : SearchPaths :=
  X.searchPathsCreate pe.targetEnvironment.workingDirectory pe.targetEnvironment.environment

/-- The locals of `Create` when the variant loop is entered (line 167). -/
def initialState (X : Collaborators) (pe : PhaseEnvironment) (phase : SourcesBuildPhase)
    (clang : ClangResolver) (hmr : HeadermapResolver) : CreateState :=
  { allInvocations := [headermapInvocationOf X pe hmr]
    variantArchitectureInvocations := []
    compilationInfo := CompilationInfo.empty
    precompiledHeaders := []
    trace := (prepass X pe phase clang hmr).trace }

/-- The body of the pair loops of `Create` for one pair. -/
def pairStep (X : Collaborators) (pe : PhaseEnvironment) (phase : SourcesBuildPhase)
    (script : ScriptResolver) (clang : ClangResolver) (hmr : HeadermapResolver)
    (cs : CreateState) (p : String × String) : CreateState :=
  processPair X script clang pe (headermapInfoOf X pe hmr) (searchPathsOf X pe)
    (prepass X pe phase clang hmr).files phase p.1 cs p.2

/-- The locals of `Create` when the variant loop is left (line 222). -/
def finalState (X : Collaborators) (pe : PhaseEnvironment) (phase : SourcesBuildPhase)
    (script : ScriptResolver) (clang : ClangResolver) (hmr : HeadermapResolver) :
    CreateState :=
  (pairsOf pe.targetEnvironment.variants pe.targetEnvironment.architectures).foldl
    (pairStep X pe phase script clang hmr) (initialState X pe phase clang hmr)

/-- The invariant of the precompiled-header set: for every hash, the trace
holds at most one `precompiledHeaderInvocation` call for it, and none while the
hash is not in the set. -/
def PchInv (X : Collaborators) (trace : List Call) (seen : List String) : Prop :=
  ∀ hash : String, trace.countP (Call.isPrecompiledHeaderCall X hash) ≤ 1 ∧
    (hash ∉ seen → trace.countP (Call.isPrecompiledHeaderCall X hash) = 0)

/-- A logged `sourceInvocation` call triggers a logged
`precompiledHeaderInvocation` call: the compilation left the descriptor passed
to the second call in the shared `CompilationInfo`, the two calls have the same
environment and working directory, and the logged result of the first is the
compile invocation. -/
def Call.Triggers (clang : ClangResolver) : Call → Call → Prop
  | Call.sourceInvocation file flags name hm sp ci env wd r,
    Call.precompiledHeaderInvocation info env2 wd2 _ =>
      (clang.sourceInvocation file flags name hm sp ci env wd).2.precompiledHeaderInfo =
          some info ∧
        r = (clang.sourceInvocation file flags name hm sp ci env wd).1 ∧
        env2 = env ∧ wd2 = wd
  | _, _ => False

/-- Every `precompiledHeaderInvocation` call of a trace comes right after the
`sourceInvocation` call that triggers it. -/
def PchAfterSource (clang : ClangResolver) (trace : List Call) : Prop :=
  ∀ (pre : List Call) (c : Call) (post : List Call), trace = pre ++ c :: post →
    c.precompiledHeader ≠ none →
    ∃ (pre0 : List Call) (s : Call), pre = pre0 ++ [s] ∧ Call.Triggers clang s c

/-- Two states of the build-file loop agree on everything but the ghost
trace. -/
def PassState.Same (s t : PassState) : Prop :=
  s.compilationInfo = t.compilationInfo ∧ s.precompiledHeaders = t.precompiledHeaders ∧
    s.invocations = t.invocations

/-- Two states of the pair loops agree on everything but the ghost trace. -/
def CreateState.Same (s t : CreateState) : Prop :=
  s.allInvocations = t.allInvocations ∧
    s.variantArchitectureInvocations = t.variantArchitectureInvocations ∧
    s.compilationInfo = t.compilationInfo ∧ s.precompiledHeaders = t.precompiledHeaders

/-- The resolved file the pre-pass finds for a build file, if any. -/
def resolvedFileOf (pe : PhaseEnvironment) (b : BuildFile) : Option TypeResolvedFile :=
  match fileReferenceOf b with
  | none => none
  | some ref => pe.resolveFileReference ref pe.targetEnvironment.environment

/-- The invocations the body of the build-file loop produces for one build
file in a given state: what it appends to an empty pair-local vector. -/
def fileInvocations (X : Collaborators) (scriptResolver : ScriptResolver)
    (clangResolver : ClangResolver) (phaseEnvironment : PhaseEnvironment)
    (headermapInfo : HeadermapInfo) (searchPaths : SearchPaths)
    (files : List (BuildFile × TypeResolvedFile)) (environment : Environment)
    (st : PassState) (buildFile : BuildFile) : List ToolInvocation :=
  (processBuildFile X scriptResolver clangResolver phaseEnvironment headermapInfo searchPaths
    files environment { st with invocations := [] } buildFile).invocations

/-- The invocations produced for each build file of a list, in order, the
state being threaded from one build file to the next. -/
def perFileLists (X : Collaborators) (scriptResolver : ScriptResolver)
    (clangResolver : ClangResolver) (phaseEnvironment : PhaseEnvironment)
    (headermapInfo : HeadermapInfo) (searchPaths : SearchPaths)
    (files : List (BuildFile × TypeResolvedFile)) (environment : Environment) :
    PassState → List BuildFile → List (List ToolInvocation)
  | _, [] => []
  | st, b :: rest =>
    fileInvocations X scriptResolver clangResolver phaseEnvironment headermapInfo searchPaths
        files environment st b ::
      perFileLists X scriptResolver clangResolver phaseEnvironment headermapInfo searchPaths
        files environment
        (processBuildFile X scriptResolver clangResolver phaseEnvironment headermapInfo
          searchPaths files environment st b) rest

/-- The state in which the build-file loop of a pair starts (line 173). -/
def pairStart (cs : CreateState) : PassState :=
  { compilationInfo := cs.compilationInfo
    precompiledHeaders := cs.precompiledHeaders
    invocations := []
    trace := cs.trace }

/-- The output base name passed to a logged `sourceInvocation` call. -/
def Call.loggedOutputBaseName : Call → Option String
  | Call.sourceInvocation _ _ name _ _ _ _ _ _ => some name
  | _ => none

/-- The settings environment handed to a logged strategy call: a compilation,
a precompiled-header generation, a generic tool or a script. -/
def Call.strategyEnvironment : Call → Option Environment
  | Call.sourceInvocation _ _ _ _ _ _ env _ _ => some env
  | Call.precompiledHeaderInvocation _ env _ _ => some env
  | Call.toolInvocationContextCreate _ _ _ env _ _ => some env
  | Call.scriptInvocation _ _ env _ _ => some env
  | _ => none

/-- The settings environment handed to a logged call made before the pair
loops: the search paths, the headermap invocation and the file resolution. -/
def Call.setupEnvironment : Call → Option Environment
  | Call.searchPathsCreate _ env => some env
  | Call.headermapInvocation _ _ env _ _ => some env
  | Call.resolveFileReference _ _ env => some env
  | _ => none

/-- A logged call is a call of the build-file loop and, when it is a strategy
call, was handed the given environment. -/
def Call.UsesEnvironment (env : Environment) (c : Call) : Prop :=
  c.isLoopCall = true ∧ ∀ e, c.strategyEnvironment = some e → e = env

/-- A later trace extends an earlier one by a segment of calls that all have
the given property. -/
def SegmentOf (P : Call → Prop) (t u : List Call) : Prop :=
  ∃ seg : List Call, u = t ++ seg ∧ ∀ c ∈ seg, P c

/-- The `CompilationInfo` obtained by replaying the `sourceInvocation` calls of
a trace in order from a given value: each call must have been handed the value
left by the calls before it, and leaves the value it returns; every other call
leaves the value as it is.  The result is `none` when a call was handed another
value. -/
def replayInfo (clang : ClangResolver) : CompilationInfo → List Call → Option CompilationInfo
  | ci, [] => some ci
  | ci, Call.sourceInvocation file flags name hm sp logged env wd _ :: rest =>
    if logged = ci then
      replayInfo clang (clang.sourceInvocation file flags name hm sp ci env wd).2 rest
    else none
  | ci, _ :: rest => replayInfo clang ci rest

/-- Whether a logged call is a `sourceInvocation` call. -/
def Call.isSourceCall : Call → Bool
  | Call.sourceInvocation _ _ _ _ _ _ _ _ _ => true
  | _ => false

/-! ## A concrete pass

A small target used to evaluate the resolver: Objective-C sources compiled by
the compiler-family rule, a yacc source handled by another tool, a shader
handled by a script rule, and a text file that no rule matches. -/

/-- The values of the settings of the two front-most layers of an environment. -/
def Example.frontValues (e : Environment) : List String :=
  (e.levels.take 2).flatMap (fun l => l.settings.map Prod.snd)

/-- The base name of a path without its extension, on characters. -/
def Example.baseNameWithoutExtension (path : String) : String :=
  let base := (path.data.reverse.takeWhile (fun c => c != '/')).reverse
  if '.' ∈ base then
    String.mk ((base.reverse.dropWhile (fun c => c != '.')).drop 1).reverse
  else String.mk base

/-- The example compiler: a file compiled with the flag "-prefix" asks for the
precompiled header "Prefix.pch". -/
def Example.clang : ClangResolver :=
  { compiler := { identifier := "com.apple.compilers.llvm.clang.1_0" }
    sourceInvocation := fun file flags name _ _ info env wd =>
      ({ executable := "clang"
         arguments := flags ++ Example.frontValues env
         workingDirectory := wd
         inputs := [file.filePath]
         outputs := [name ++ ".o"] },
       { precompiledHeaderInfo :=
           if "-prefix" ∈ flags then
             some { prefixHeader := "Prefix.pch", dialect := "objective-c", arguments := [] }
           else info.precompiledHeaderInfo
         linkerDriver := "clang"
         linkerArguments := info.linkerArguments })
    precompiledHeaderInvocation := fun info _ wd =>
      { executable := "clang"
        arguments := ["-x", info.dialect ++ "-header"]
        workingDirectory := wd
        inputs := [info.prefixHeader]
        outputs := [info.prefixHeader ++ ".gch"] } }

def Example.script : ScriptResolver :=
  { invocation := fun path rule _ wd =>
      { executable := "/bin/sh"
        arguments := ["-c", rule.script]
        workingDirectory := wd
        inputs := [path]
        outputs := [] } }

def Example.headermap : HeadermapResolver :=
  { invocation := fun target _ _ wd _ =>
      ({ executable := "headermap"
         arguments := [target.name]
         workingDirectory := wd
         inputs := []
         outputs := [target.name ++ ".hmap"] },
       { systemHeadermapFiles := [], userHeadermapFiles := [target.name ++ ".hmap"] }) }

def Example.collaborators : Collaborators :=
  { scriptResolverCreate := fun _ => some Example.script
    clangResolverCreate := fun _ => some Example.clang
    headermapResolverCreate := fun _ _ => some Example.headermap
    searchPathsCreate := fun _ _ =>
      { headerSearchPaths := [], userHeaderSearchPaths := [], frameworkSearchPaths := [],
        librarySearchPaths := [] }
    variantLevel := fun v => { settings := [("CURRENT_VARIANT", v)] }
    architectureLevel := fun a => { settings := [("CURRENT_ARCH", a)] }
    toolInvocationContextCreate := fun tool _ inputs _ wd =>
      { executable := tool.identifier, arguments := [], workingDirectory := wd,
        inputs := inputs, outputs := [] }
    getBaseNameWithoutExtension := Example.baseNameWithoutExtension
    precompiledHeaderHash := fun info => info.prefixHeader ++ info.dialect }

/-- A build file with a file reference to the given path. -/
def Example.buildFile (id : Nat) (path : String) (flags : List String) : BuildFile :=
  { id := id, fileRef := some { type := GroupItemType.kTypeFileReference, path := path },
    compilerFlags := flags }

/-- The source `a.m`, compiled without a prefix header. -/
def Example.fileA : BuildFile := Example.buildFile 1 "a.m" []

/-- The sources `p.m` and `q.m`, both compiled with the prefix header. -/
def Example.fileP : BuildFile := Example.buildFile 2 "p.m" ["-prefix"]

def Example.fileQ : BuildFile := Example.buildFile 3 "q.m" ["-prefix"]

/-- Two sources named `util.m` in different directories. -/
def Example.utilLib : BuildFile := Example.buildFile 4 "lib/util.m" []

def Example.utilApp : BuildFile := Example.buildFile 5 "app/util.m" []

/-- A yacc source, a shader and a text file. -/
def Example.fileY : BuildFile := Example.buildFile 6 "parse.y" []

def Example.fileG : BuildFile := Example.buildFile 7 "shader.glsl" []

def Example.fileT : BuildFile := Example.buildFile 8 "README" []

/-- The file type the example gives to a path. -/
def Example.fileTypeOf (path : String) : String :=
  if path = "parse.y" then "sourcecode.yacc"
  else if path = "shader.glsl" then "sourcecode.glsl"
  else if path = "README" then "text"
  else "sourcecode.c.objc"

/-- The build rules of the example target, by file type. -/
def Example.buildRules (file : TypeResolvedFile) : Option BuildRule :=
  if file.fileType.identifier = "sourcecode.c.objc" then
    some { tool := some { identifier := "com.apple.compilers.gcc" }, script := "" }
  else if file.fileType.identifier = "sourcecode.yacc" then
    some { tool := some { identifier := "com.apple.compilers.yacc" }, script := "" }
  else if file.fileType.identifier = "sourcecode.glsl" then
    some { tool := none, script := "glslc" }
  else none

def Example.target (variants architectures : List String) : TargetEnvironment :=
  { workingDirectory := "/src"
    environment := { levels := [], defaultLevels := [] }
    variants := variants
    architectures := architectures
    buildRules := Example.buildRules
    buildFileDisambiguation := fun b =>
      if b.id = 4 then some "util-lib" else if b.id = 5 then some "util-app" else none }

def Example.phaseEnvironment (variants architectures : List String) : PhaseEnvironment :=
  { buildEnvironment := { baseEnvironment := { levels := [], defaultLevels := [] } }
    targetEnvironment := Example.target variants architectures
    target := { name := "App" }
    resolveFileReference := fun ref _ =>
      if ref.path = "missing.m" then none
      else some { filePath := ref.path, fileType := { identifier := Example.fileTypeOf ref.path } } }

/-- The example pass over the given variants, architectures and build files. -/
def Example.create (variants architectures : List String) (files : List BuildFile) :
    CreateResult :=
  SourcesResolver.Create Example.collaborators (Example.phaseEnvironment variants architectures)
    { files := files }

/-- The invocations of the example pass. -/
def Example.headermapInvocation : ToolInvocation :=
  { executable := "headermap", arguments := ["App"], workingDirectory := "/src",
    inputs := [], outputs := ["App.hmap"] }

def Example.compile (path name arch : String) (flags : List String) : ToolInvocation :=
  { executable := "clang", arguments := flags ++ [arch, "normal"], workingDirectory := "/src",
    inputs := [path], outputs := [name ++ ".o"] }

def Example.precompile : ToolInvocation :=
  { executable := "clang", arguments := ["-x", "objective-c-header"],
    workingDirectory := "/src", inputs := ["Prefix.pch"], outputs := ["Prefix.pch.gch"] }

/-- The descriptor of the prefix header of the example. -/
def Example.prefixInfo : PrecompiledHeaderInfo :=
  { prefixHeader := "Prefix.pch", dialect := "objective-c", arguments := [] }

/-- The settings environment of the pair (normal, x86_64) of the example. -/
def Example.environment : Environment :=
  currentEnvironment Example.collaborators (Example.target ["normal"] ["x86_64"]) "normal"
    "x86_64"

/-- The resolved form of a build file of the example. -/
def Example.resolved (path : String) : TypeResolvedFile :=
  { filePath := path, fileType := { identifier := Example.fileTypeOf path } }

/-- A state of the build-file loop in which nothing has happened yet. -/
def Example.emptyState : PassState :=
  { compilationInfo := CompilationInfo.empty, precompiledHeaders := [], invocations := [],
    trace := [] }

/-- A second example compiler, which reports the linker driver "clang++" and the
linker argument "-lc++" for a file compiled with the flag "-cxx", and the
driver "clang" for any other file. -/
def Example.driverClang : ClangResolver :=
  { compiler := Example.clang.compiler
    sourceInvocation := fun file flags name hm sp info env wd =>
      ((Example.clang.sourceInvocation file flags name hm sp info env wd).1,
       { precompiledHeaderInfo := info.precompiledHeaderInfo
         linkerDriver := if "-cxx" ∈ flags then "clang++" else "clang"
         linkerArguments :=
           if "-cxx" ∈ flags then info.linkerArguments ++ ["-lc++"]
           else info.linkerArguments })
    precompiledHeaderInvocation := Example.clang.precompiledHeaderInvocation }

/-- The collaborators of the example with the second compiler. -/
def Example.driverCollaborators : Collaborators :=
  { scriptResolverCreate := Example.collaborators.scriptResolverCreate
    clangResolverCreate := fun _ => some Example.driverClang
    headermapResolverCreate := Example.collaborators.headermapResolverCreate
    searchPathsCreate := Example.collaborators.searchPathsCreate
    variantLevel := Example.collaborators.variantLevel
    architectureLevel := Example.collaborators.architectureLevel
    toolInvocationContextCreate := Example.collaborators.toolInvocationContextCreate
    getBaseNameWithoutExtension := Example.collaborators.getBaseNameWithoutExtension
    precompiledHeaderHash := Example.collaborators.precompiledHeaderHash }

/-- The source `c.mm`, compiled with the flag "-cxx". -/
def Example.fileCxx : BuildFile := Example.buildFile 9 "c.mm" ["-cxx"]

/-- The `CompilationInfo` the second compiler leaves after `c.mm`. -/
def Example.infoAfterCxx : CompilationInfo :=
  { precompiledHeaderInfo := none, linkerDriver := "clang++", linkerArguments := ["-lc++"] }

/-- The headermap descriptor of the example pass. -/
def Example.headermapInfo : HeadermapInfo :=
  { systemHeadermapFiles := [], userHeadermapFiles := ["App.hmap"] }

/-- A phase environment whose build rules match every file with a rule that
has neither a tool nor a script. -/
def Example.emptyRuleEnvironment : PhaseEnvironment :=
  { buildEnvironment := (Example.phaseEnvironment ["normal"] ["x86_64"]).buildEnvironment
    targetEnvironment :=
      { workingDirectory := "/src"
        environment := { levels := [], defaultLevels := [] }
        variants := ["normal"]
        architectures := ["x86_64"]
        buildRules := fun _ => some { tool := none, script := "" }
        buildFileDisambiguation := fun _ => none }
    target := { name := "App" }
    resolveFileReference :=
      (Example.phaseEnvironment ["normal"] ["x86_64"]).resolveFileReference }

end pbxbuild

namespace pbxbuild

/-! ## Steps only append -/


theorem passExtends_refl (s : PassState) : s.Extends s :=
  ⟨[], by simp, by simp, by simp⟩

theorem passExtends_trans {s t u : PassState} (h1 : s.Extends t) (h2 : t.Extends u) :
    s.Extends u := by
  obtain ⟨seg1, ht, hi, hl⟩ := h1
  obtain ⟨seg2, ht2, hi2, hl2⟩ := h2
  refine ⟨seg1 ++ seg2, ?_, ?_, ?_⟩
  · rw [ht2, ht, List.append_assoc]
  · rw [hi2, hi, List.filterMap_append, List.append_assoc]
  · intro c hc
    rcases List.mem_append.1 hc with h | h
    · exact hl c h
    · exact hl2 c h

theorem CreateCompilation_extends (X : Collaborators) (clang : ClangResolver)
    (b : BuildFile) (file : TypeResolvedFile) (env : Environment) (pe : PhaseEnvironment)
    (hm : HeadermapInfo) (sp : SearchPaths) (st : PassState) :
    st.Extends (CreateCompilation X clang b file env pe hm sp st) := by
  unfold CreateCompilation
  simp only
  split
  · refine ⟨[_], rfl, ?_, ?_⟩ <;> simp [Call.emitted, Call.isLoopCall]
  · split
    · refine ⟨[_], rfl, ?_, ?_⟩ <;> simp [Call.emitted, Call.isLoopCall]
    · refine ⟨[_, _], List.append_assoc _ _ _, ?_, ?_⟩ <;> simp [Call.emitted, Call.isLoopCall]

theorem processBuildFile_extends (X : Collaborators) (script : ScriptResolver)
    (clang : ClangResolver) (pe : PhaseEnvironment) (hm : HeadermapInfo) (sp : SearchPaths)
    (files : List (BuildFile × TypeResolvedFile)) (env : Environment) (st : PassState)
    (b : BuildFile) :
    st.Extends (processBuildFile X script clang pe hm sp files env st b) := by
  unfold processBuildFile
  simp only
  split
  · exact passExtends_refl st
  · have h0 : ∀ file : TypeResolvedFile,
        st.Extends { st with trace := st.trace ++ [Call.buildRulesResolve file] } :=
      fun file => by refine ⟨[_], rfl, ?_, ?_⟩ <;> simp [Call.emitted, Call.isLoopCall]
    split
    · split
      · split
        · exact passExtends_trans (h0 _) (CreateCompilation_extends ..)
        · refine ⟨[_, _], List.append_assoc _ _ _, ?_, ?_⟩ <;> simp [Call.emitted, Call.isLoopCall]
      · split
        · refine ⟨[_, _], List.append_assoc _ _ _, ?_, ?_⟩ <;> simp [Call.emitted, Call.isLoopCall]
        · exact h0 _
    · refine ⟨[_, _], List.append_assoc _ _ _, ?_, ?_⟩ <;> simp [Call.emitted, Call.isLoopCall]

theorem processBuildFiles_extends (X : Collaborators) (script : ScriptResolver)
    (clang : ClangResolver) (pe : PhaseEnvironment) (hm : HeadermapInfo) (sp : SearchPaths)
    (files : List (BuildFile × TypeResolvedFile)) (phase : SourcesBuildPhase)
    (env : Environment) (st : PassState) :
    st.Extends (processBuildFiles X script clang pe hm sp files phase env st) := by
  unfold processBuildFiles
  generalize phase.files = l
  induction l generalizing st with
  | nil => exact passExtends_refl st
  | cons b rest ih =>
    rw [List.foldl_cons]
    exact passExtends_trans (processBuildFile_extends ..) (ih _)



theorem createExtends_refl (s : CreateState) : s.Extends s :=
  ⟨[], by simp, by simp, by simp⟩

theorem createExtends_trans {s t u : CreateState} (h1 : s.Extends t)
    (h2 : t.Extends u) : s.Extends u := by
  obtain ⟨seg1, ht, hi, hl⟩ := h1
  obtain ⟨seg2, ht2, hi2, hl2⟩ := h2
  refine ⟨seg1 ++ seg2, ?_, ?_, ?_⟩
  · rw [ht2, ht, List.append_assoc]
  · rw [hi2, hi, List.filterMap_append, List.append_assoc]
  · intro c hc
    rcases List.mem_append.1 hc with h | h
    · exact hl c h
    · exact hl2 c h

theorem processPair_extends (X : Collaborators) (script : ScriptResolver)
    (clang : ClangResolver) (pe : PhaseEnvironment) (hm : HeadermapInfo) (sp : SearchPaths)
    (files : List (BuildFile × TypeResolvedFile)) (phase : SourcesBuildPhase)
    (variant : String) (cs : CreateState) (arch : String) :
    cs.Extends (processPair X script clang pe hm sp files phase variant cs arch) := by
  obtain ⟨seg, ht, hi, hl⟩ := processBuildFiles_extends X script clang pe hm sp files phase
    (currentEnvironment X pe.targetEnvironment variant arch)
    { compilationInfo := cs.compilationInfo, precompiledHeaders := cs.precompiledHeaders,
      invocations := [], trace := cs.trace }
  refine ⟨seg, ?_, ?_, hl⟩
  · simpa [processPair] using ht
  · simp only [processPair]
    rw [hi]
    simp

theorem processVariant_extends (X : Collaborators) (script : ScriptResolver)
    (clang : ClangResolver) (pe : PhaseEnvironment) (hm : HeadermapInfo) (sp : SearchPaths)
    (files : List (BuildFile × TypeResolvedFile)) (phase : SourcesBuildPhase)
    (cs : CreateState) (variant : String) :
    cs.Extends (processVariant X script clang pe hm sp files phase cs variant) := by
  unfold processVariant
  generalize pe.targetEnvironment.architectures = l
  induction l generalizing cs with
  | nil => exact createExtends_refl cs
  | cons a rest ih =>
    rw [List.foldl_cons]
    exact createExtends_trans (processPair_extends ..) (ih _)

theorem processVariants_extends (X : Collaborators) (script : ScriptResolver)
    (clang : ClangResolver) (pe : PhaseEnvironment) (hm : HeadermapInfo) (sp : SearchPaths)
    (files : List (BuildFile × TypeResolvedFile)) (phase : SourcesBuildPhase)
    (variants : List String) (cs : CreateState) :
    cs.Extends
      (variants.foldl (processVariant X script clang pe hm sp files phase) cs) := by
  induction variants generalizing cs with
  | nil => exact createExtends_refl cs
  | cons v rest ih =>
    rw [List.foldl_cons]
    exact createExtends_trans (processVariant_extends ..) (ih _)


theorem resolveBuildFile_trace (pe : PhaseEnvironment) (rs : ResolveState) (b : BuildFile) :
    (resolveBuildFile pe rs b).trace = rs.trace ++ (resolveCall pe b).toList := by
  unfold resolveBuildFile resolveCall
  cases h : fileReferenceOf b with
  | none => simp
  | some ref =>
    simp only [Option.map_some', Option.toList_some]
    split <;> rfl

theorem resolveBuildFiles_trace (pe : PhaseEnvironment) (l : List BuildFile)
    (rs : ResolveState) :
    (l.foldl (resolveBuildFile pe) rs).trace = rs.trace ++ l.filterMap (resolveCall pe) := by
  induction l generalizing rs with
  | nil => simp
  | cons b rest ih =>
    rw [List.foldl_cons, ih, resolveBuildFile_trace]
    cases h : resolveCall pe b <;> simp [List.filterMap_cons, h]



/-- When the three resolvers are constructed, `Create` returns a resolver; its
trace is the setup calls, the pre-pass calls and a segment of loop calls, and
its global vector is the headermap invocation followed by the invocations the
loop calls returned. -/
theorem Create_shape (X : Collaborators) (pe : PhaseEnvironment) (phase : SourcesBuildPhase)
    (script : ScriptResolver) (clang : ClangResolver) (hmr : HeadermapResolver)
    (h1 : X.scriptResolverCreate pe = some script)
    (h2 : X.clangResolverCreate pe = some clang)
    (h3 : X.headermapResolverCreate pe clang.compiler = some hmr) :
    ∃ (r : SourcesResolver) (seg : List Call),
      (SourcesResolver.Create X pe phase).resolver = some r ∧
      (SourcesResolver.Create X pe phase).trace =
        setupTrace X pe clang hmr ++ phase.files.filterMap (resolveCall pe) ++ seg ∧
      r.invocations = headermapInvocationOf X pe hmr :: seg.filterMap Call.emitted ∧
      ∀ c ∈ seg, c.isLoopCall = true := by
  unfold SourcesResolver.Create
  simp only [h1, h2, h3]
  obtain ⟨seg, ht, hi, hl⟩ := processVariants_extends X script clang pe
    (hmr.invocation pe.target
      (X.searchPathsCreate pe.targetEnvironment.workingDirectory pe.targetEnvironment.environment)
      pe.targetEnvironment.environment pe.targetEnvironment.workingDirectory
      HeadermapInfo.empty).2
    (X.searchPathsCreate pe.targetEnvironment.workingDirectory pe.targetEnvironment.environment)
    (phase.files.foldl (resolveBuildFile pe)
      { files := [], trace := setupTrace X pe clang hmr }).files phase
    pe.targetEnvironment.variants
    { allInvocations := [headermapInvocationOf X pe hmr]
      variantArchitectureInvocations := []
      compilationInfo := CompilationInfo.empty
      precompiledHeaders := []
      trace := (phase.files.foldl (resolveBuildFile pe)
        { files := [], trace := setupTrace X pe clang hmr }).trace }
  refine ⟨_, seg, rfl, ?_, ?_, hl⟩
  · exact ht.trans (congrArg (fun t => t ++ seg) (resolveBuildFiles_trace pe phase.files _))
  · exact hi

end pbxbuild

namespace pbxbuild

/-! ## Construction failures and the shape of a pass -/

/-- The factory `Create` returns no resolver exactly when one of the three constructions
fails. -/
theorem Create_resolver_eq_none_iff (X : Collaborators) (pe : PhaseEnvironment)
    (phase : SourcesBuildPhase) :
    (SourcesResolver.Create X pe phase).resolver = none ↔
      (X.scriptResolverCreate pe = none ∨ X.clangResolverCreate pe = none ∨
        ∃ clang, X.clangResolverCreate pe = some clang ∧
          X.headermapResolverCreate pe clang.compiler = none) := by
  unfold SourcesResolver.Create
  cases h1 : X.scriptResolverCreate pe with
  | none => simp
  | some script =>
    cases h2 : X.clangResolverCreate pe with
    | none => simp
    | some clang =>
      cases h3 : X.headermapResolverCreate pe clang.compiler with
      | none => simp [h3]
      | some hmr => simp [h3]

/-- A returned resolver comes from three successful constructions. -/
theorem Create_resolver_some (X : Collaborators) (pe : PhaseEnvironment)
    (phase : SourcesBuildPhase) (r : SourcesResolver)
    (h : (SourcesResolver.Create X pe phase).resolver = some r) :
    ∃ script clang hmr, X.scriptResolverCreate pe = some script ∧
      X.clangResolverCreate pe = some clang ∧
      X.headermapResolverCreate pe clang.compiler = some hmr := by
  cases h1 : X.scriptResolverCreate pe with
  | none =>
    have := (Create_resolver_eq_none_iff X pe phase).2 (Or.inl h1)
    rw [this] at h
    exact absurd h (by simp)
  | some script =>
    cases h2 : X.clangResolverCreate pe with
    | none =>
      have := (Create_resolver_eq_none_iff X pe phase).2 (Or.inr (Or.inl h2))
      rw [this] at h
      exact absurd h (by simp)
    | some clang =>
      cases h3 : X.headermapResolverCreate pe clang.compiler with
      | none =>
        have := (Create_resolver_eq_none_iff X pe phase).2 (Or.inr (Or.inr ⟨clang, h2, h3⟩))
        rw [this] at h
        exact absurd h (by simp)
      | some hmr => exact ⟨script, clang, hmr, rfl, rfl, h3⟩

/-- When a construction fails, no call to the file-reference resolver is
logged. -/
theorem Create_trace_of_none (X : Collaborators) (pe : PhaseEnvironment)
    (phase : SourcesBuildPhase)
    (h : (SourcesResolver.Create X pe phase).resolver = none) :
    (SourcesResolver.Create X pe phase).trace.filterMap Call.resolvedReference = [] := by
  revert h
  unfold SourcesResolver.Create
  cases h1 : X.scriptResolverCreate pe with
  | none => simp [Call.resolvedReference]
  | some script =>
    cases h2 : X.clangResolverCreate pe with
    | none => simp [Call.resolvedReference]
    | some clang =>
      cases h3 : X.headermapResolverCreate pe clang.compiler with
      | none => simp [h3, Call.resolvedReference]
      | some hmr => simp [h3]

theorem resolvedReference_of_isLoopCall (c : Call) (h : c.isLoopCall = true) :
    c.resolvedReference = none := by
  cases c <;> simp_all [Call.isLoopCall, Call.resolvedReference]

theorem headermapResult_of_isLoopCall (c : Call) (h : c.isLoopCall = true) :
    c.headermapResult = none := by
  cases c <;> simp_all [Call.isLoopCall, Call.headermapResult]

theorem filterMap_resolveCall_resolvedReference (pe : PhaseEnvironment)
    (l : List BuildFile) :
    (l.filterMap (resolveCall pe)).filterMap Call.resolvedReference =
      l.filterMap fileReferenceOf := by
  rw [List.filterMap_filterMap]
  congr 1
  funext b
  unfold resolveCall
  cases fileReferenceOf b <;> simp [Call.resolvedReference]

theorem filterMap_resolveCall_headermapResult (pe : PhaseEnvironment)
    (l : List BuildFile) :
    (l.filterMap (resolveCall pe)).filterMap Call.headermapResult = [] := by
  rw [List.filterMap_filterMap, List.filterMap_eq_nil_iff]
  intro b _
  unfold resolveCall
  cases fileReferenceOf b <;> simp [Call.headermapResult]

theorem resolvedBuildFile_of_isLoopCall (c : Call) (h : c.isLoopCall = true) :
    c.resolvedBuildFile = none := by
  cases c <;> simp_all [Call.isLoopCall, Call.resolvedBuildFile]

theorem filterMap_resolveCall_resolvedBuildFile (pe : PhaseEnvironment)
    (l : List BuildFile) :
    (l.filterMap (resolveCall pe)).filterMap Call.resolvedBuildFile =
      l.filter (fun b => (fileReferenceOf b).isSome) := by
  induction l with
  | nil => rfl
  | cons b rest ih =>
    cases hf : fileReferenceOf b with
    | none => simpa [List.filterMap_cons, resolveCall, hf, List.filter_cons] using ih
    | some ref =>
      simpa [List.filterMap_cons, resolveCall, hf, List.filter_cons, Call.resolvedBuildFile]
        using ih

/-- When a construction fails, no call to the file-reference resolver is
logged for any build file. -/
theorem Create_trace_of_none_buildFile (X : Collaborators) (pe : PhaseEnvironment)
    (phase : SourcesBuildPhase)
    (h : (SourcesResolver.Create X pe phase).resolver = none) :
    (SourcesResolver.Create X pe phase).trace.filterMap Call.resolvedBuildFile = [] := by
  revert h
  unfold SourcesResolver.Create
  cases h1 : X.scriptResolverCreate pe with
  | none => simp [Call.resolvedBuildFile]
  | some script =>
    cases h2 : X.clangResolverCreate pe with
    | none => simp [Call.resolvedBuildFile]
    | some clang =>
      cases h3 : X.headermapResolverCreate pe clang.compiler with
      | none => simp [h3, Call.resolvedBuildFile]
      | some hmr => simp [h3]

/-! ## The claims -/

/-- C1: whenever `SourcesResolver::Create` returns a resolver, exactly one
`HeadermapResolver::invocation` call was made, the global invocation list is
non-empty, and its element at index 0 is the invocation that call returned. -/
theorem C1_headermap_invocation_first (X : Collaborators) (pe : PhaseEnvironment)
    (phase : SourcesBuildPhase) (r : SourcesResolver)
    (h : (SourcesResolver.Create X pe phase).resolver = some r) :
    ∃ clang hmr, X.clangResolverCreate pe = some clang ∧
      X.headermapResolverCreate pe clang.compiler = some hmr ∧
      (SourcesResolver.Create X pe phase).trace.filterMap Call.headermapResult =
        [headermapInvocationOf X pe hmr] ∧
      r.invocations ≠ [] ∧
      r.invocations[0]? = some (headermapInvocationOf X pe hmr) := by
  obtain ⟨script, clang, hmr, h1, h2, h3⟩ := Create_resolver_some X pe phase r h
  obtain ⟨r0, seg, hr, ht, hi, hl⟩ := Create_shape X pe phase script clang hmr h1 h2 h3
  have hrr : r0 = r := Option.some.inj (hr.symm.trans h)
  subst hrr
  refine ⟨clang, hmr, h2, h3, ?_, ?_, ?_⟩
  · rw [ht, List.filterMap_append, List.filterMap_append,
      filterMap_resolveCall_headermapResult,
      List.filterMap_eq_nil_iff.2 (fun c hc => headermapResult_of_isLoopCall c (hl c hc))]
    simp [setupTrace, headermapInvocationOf, Call.headermapResult]
  · rw [hi]
    exact List.cons_ne_nil _ _
  · rw [hi]
    exact List.getElem?_cons_zero

/-- The example pass returns a resolver whose first invocation is the headermap
invocation. -/
theorem C1_headermap_invocation_first_witness :
    ∃ r, (SourcesResolver.Create Example.collaborators
        (Example.phaseEnvironment ["normal"] ["x86_64", "arm64"])
        { files := [Example.fileA, Example.fileP] }).resolver = some r ∧
      ∃ clang hmr, Example.collaborators.clangResolverCreate
          (Example.phaseEnvironment ["normal"] ["x86_64", "arm64"]) = some clang ∧
        Example.collaborators.headermapResolverCreate
          (Example.phaseEnvironment ["normal"] ["x86_64", "arm64"]) clang.compiler =
            some hmr ∧
        (SourcesResolver.Create Example.collaborators
          (Example.phaseEnvironment ["normal"] ["x86_64", "arm64"])
          { files := [Example.fileA, Example.fileP] }).trace.filterMap Call.headermapResult =
          [headermapInvocationOf Example.collaborators
            (Example.phaseEnvironment ["normal"] ["x86_64", "arm64"]) hmr] ∧
        r.invocations ≠ [] ∧
        r.invocations[0]? = some (headermapInvocationOf Example.collaborators
          (Example.phaseEnvironment ["normal"] ["x86_64", "arm64"]) hmr) :=
  ⟨_, rfl, C1_headermap_invocation_first Example.collaborators
    (Example.phaseEnvironment ["normal"] ["x86_64", "arm64"])
    { files := [Example.fileA, Example.fileP] } _ rfl⟩

/-- C5 (amended): the calls `SourcesResolver::Create` makes to the
file-reference resolver are, in order, exactly one call for each entry of the
build-file list of the phase whose reference is a file reference (and none when
a construction fails), whatever the variants and architectures are; the pair
loops add none.  So a build file is resolved at most as often as the phase
lists it, and at most once when no build file is listed twice. -/
theorem C5_resolution_once_per_entry (X : Collaborators) (pe : PhaseEnvironment)
    (phase : SourcesBuildPhase) :
    (SourcesResolver.Create X pe phase).trace.filterMap Call.resolvedBuildFile =
        (if (SourcesResolver.Create X pe phase).resolver.isSome then
          phase.files.filter (fun b => (fileReferenceOf b).isSome) else []) ∧
      (SourcesResolver.Create X pe phase).trace.filterMap Call.resolvedReference =
        (if (SourcesResolver.Create X pe phase).resolver.isSome then
          phase.files.filterMap fileReferenceOf else []) ∧
      (∀ b, ((SourcesResolver.Create X pe phase).trace.filterMap Call.resolvedBuildFile).count b ≤
        phase.files.count b) ∧
      (phase.files.Nodup → ∀ b,
        ((SourcesResolver.Create X pe phase).trace.filterMap Call.resolvedBuildFile).count b ≤
          1) := by
  have key : (SourcesResolver.Create X pe phase).trace.filterMap Call.resolvedBuildFile =
      (if (SourcesResolver.Create X pe phase).resolver.isSome then
        phase.files.filter (fun b => (fileReferenceOf b).isSome) else []) := by
    cases h : (SourcesResolver.Create X pe phase).resolver with
    | none => simpa using Create_trace_of_none_buildFile X pe phase h
    | some r =>
      obtain ⟨script, clang, hmr, h1, h2, h3⟩ := Create_resolver_some X pe phase r h
      obtain ⟨r0, seg, -, ht, -, hl⟩ := Create_shape X pe phase script clang hmr h1 h2 h3
      rw [ht, List.filterMap_append, List.filterMap_append,
        filterMap_resolveCall_resolvedBuildFile,
        List.filterMap_eq_nil_iff.2 (fun c hc => resolvedBuildFile_of_isLoopCall c (hl c hc))]
      simp [setupTrace, Call.resolvedBuildFile]
  have key2 : (SourcesResolver.Create X pe phase).trace.filterMap Call.resolvedReference =
      (if (SourcesResolver.Create X pe phase).resolver.isSome then
        phase.files.filterMap fileReferenceOf else []) := by
    cases h : (SourcesResolver.Create X pe phase).resolver with
    | none => simpa using Create_trace_of_none X pe phase h
    | some r =>
      obtain ⟨script, clang, hmr, h1, h2, h3⟩ := Create_resolver_some X pe phase r h
      obtain ⟨r0, seg, -, ht, -, hl⟩ := Create_shape X pe phase script clang hmr h1 h2 h3
      rw [ht, List.filterMap_append, List.filterMap_append,
        filterMap_resolveCall_resolvedReference,
        List.filterMap_eq_nil_iff.2 (fun c hc => resolvedReference_of_isLoopCall c (hl c hc))]
      simp [setupTrace, Call.resolvedReference]
  have hcount : ∀ b,
      ((SourcesResolver.Create X pe phase).trace.filterMap Call.resolvedBuildFile).count b ≤
        phase.files.count b := by
    intro b
    rw [key]
    split
    · exact (List.filter_sublist phase.files).count_le b
    · simp
  refine ⟨key, key2, hcount, ?_⟩
  intro hnd b
  exact (hcount b).trans (List.nodup_iff_count_le_one.1 hnd b)

/-- In the example pass over `a.m` and `p.m`, two variants and two
architectures, each build file is resolved at most once. -/
theorem C5_resolution_once_per_entry_witness :
    [Example.fileA, Example.fileP].Nodup ∧
      ((SourcesResolver.Create Example.collaborators
        (Example.phaseEnvironment ["normal", "profile"] ["x86_64", "arm64"])
        { files := [Example.fileA, Example.fileP] }).trace.filterMap
          Call.resolvedBuildFile).count Example.fileA ≤ 1 :=
  ⟨by decide, (C5_resolution_once_per_entry Example.collaborators
    (Example.phaseEnvironment ["normal", "profile"] ["x86_64", "arm64"])
    { files := [Example.fileA, Example.fileP] }).2.2.2 (by decide) Example.fileA⟩

/-- C5 fails as stated: in the pass over a phase that lists the build file
`a.m` twice, the file-reference resolver is called twice for that one build
file, because the pre-pass resolves the reference (line 159) before it consults
the map (line 164). -/
theorem C5_counterexample :
    ((Example.create ["normal", "profile"] ["x86_64", "arm64"]
        [Example.fileA, Example.fileA]).trace.filterMap Call.resolvedBuildFile).count
        Example.fileA = 2 ∧
      [Example.fileA, Example.fileA].dedup = [Example.fileA] ∧
      ¬ (∀ b, ((Example.create ["normal", "profile"] ["x86_64", "arm64"]
        [Example.fileA, Example.fileA]).trace.filterMap Call.resolvedBuildFile).count b ≤
          1) :=
  ⟨by decide, by decide, fun h => absurd (h Example.fileA) (by decide)⟩

/-- C6: `SourcesResolver::Create` returns no resolver if and only if the
construction of the script resolver, of the compiler resolver, or (the compiler
resolver being constructed) of the headermap resolver fails; the condition does
not mention the phase, so with the three constructed every phase yields a
resolver. -/
theorem C6_no_resolver_iff_construction_fails (X : Collaborators) (pe : PhaseEnvironment)
    (phase : SourcesBuildPhase) :
    (SourcesResolver.Create X pe phase).resolver = none ↔
      (X.scriptResolverCreate pe = none ∨ X.clangResolverCreate pe = none ∨
        ∃ clang, X.clangResolverCreate pe = some clang ∧
          X.headermapResolverCreate pe clang.compiler = none) :=
  Create_resolver_eq_none_iff X pe phase

end pbxbuild

namespace pbxbuild

/-! ## The per-pair mapping -/

theorem mapFind_append {κ ν : Type} [DecidableEq κ] (m : List (κ × ν)) (k q : κ) (v : ν) :
    mapFind (m ++ [(k, v)]) q =
      match mapFind m q with
      | some w => some w
      | none => if k = q then some v else none := by
  induction m with
  | nil => simp [mapFind]
  | cons e rest ih =>
    obtain ⟨k0, v0⟩ := e
    simp only [List.cons_append, mapFind]
    by_cases h : k0 = q
    · simp [h]
    · simp [h, ih]

theorem mapFind_mapInsert_self {κ ν : Type} [DecidableEq κ] (m : List (κ × ν)) (k : κ)
    (v : ν) (h : mapFind m k = none) : mapFind (mapInsert m k v) k = some v := by
  simp [mapInsert, h, mapFind_append]

theorem mapFind_mapInsert_of_ne {κ ν : Type} [DecidableEq κ] (m : List (κ × ν)) (k q : κ)
    (v : ν) (h : k ≠ q) : mapFind (mapInsert m k v) q = mapFind m q := by
  unfold mapInsert
  cases hk : mapFind m k with
  | some w => rfl
  | none =>
    simp only [mapFind_append, h, if_false]
    cases mapFind m q <;> rfl

/-- The nested variant and architecture loops are one loop over the pairs in
iteration order. -/
theorem foldl_pairs {σ : Type} (step : String → σ → String → σ)
    (variants architectures : List String) (s : σ) :
    variants.foldl (fun s v => architectures.foldl (step v) s) s =
      (pairsOf variants architectures).foldl (fun s p => step p.1 s p.2) s := by
  induction variants generalizing s with
  | nil => rfl
  | cons v rest ih =>
    simp only [pairsOf, List.flatMap_cons, List.foldl_cons, List.foldl_append, List.foldl_map]
    exact ih _

/-- The pair loop of `Create` as a loop over the pairs. -/
theorem processVariants_eq_foldl_pairs (X : Collaborators) (script : ScriptResolver)
    (clang : ClangResolver) (pe : PhaseEnvironment) (hm : HeadermapInfo) (sp : SearchPaths)
    (files : List (BuildFile × TypeResolvedFile)) (phase : SourcesBuildPhase)
    (cs : CreateState) :
    pe.targetEnvironment.variants.foldl (processVariant X script clang pe hm sp files phase) cs =
      (pairsOf pe.targetEnvironment.variants pe.targetEnvironment.architectures).foldl
        (fun s p => processPair X script clang pe hm sp files phase p.1 s p.2) cs :=
  foldl_pairs (fun v s a => processPair X script clang pe hm sp files phase v s a)
    pe.targetEnvironment.variants pe.targetEnvironment.architectures cs

/-- One pair appends its list to the global vector and records it under its
key unless the key is already present. -/
theorem processPair_lists (X : Collaborators) (script : ScriptResolver)
    (clang : ClangResolver) (pe : PhaseEnvironment) (hm : HeadermapInfo) (sp : SearchPaths)
    (files : List (BuildFile × TypeResolvedFile)) (phase : SourcesBuildPhase)
    (variant : String) (cs : CreateState) (arch : String) :
    ∃ l : List ToolInvocation,
      (processPair X script clang pe hm sp files phase variant cs arch).allInvocations =
        cs.allInvocations ++ l ∧
      (processPair X script clang pe hm sp files phase variant cs
        arch).variantArchitectureInvocations =
        mapInsert cs.variantArchitectureInvocations (variant, arch) l :=
  ⟨_, rfl, rfl⟩

/-- Over pairwise distinct pairs none of which is in the mapping yet, the
global vector grows by the concatenation of the lists recorded for the
pairs. -/
theorem foldl_pairs_lists (X : Collaborators) (script : ScriptResolver)
    (clang : ClangResolver) (pe : PhaseEnvironment) (hm : HeadermapInfo) (sp : SearchPaths)
    (files : List (BuildFile × TypeResolvedFile)) (phase : SourcesBuildPhase)
    (ps : List (String × String)) (hnd : ps.Nodup) (cs : CreateState)
    (hfresh : ∀ p ∈ ps, mapFind cs.variantArchitectureInvocations p = none) :
    let cs1 := ps.foldl
      (fun s p => processPair X script clang pe hm sp files phase p.1 s p.2) cs
    cs1.allInvocations = cs.allInvocations ++
        ps.flatMap (fun p => (mapFind cs1.variantArchitectureInvocations p).getD []) ∧
      (∀ p ∈ ps, (mapFind cs1.variantArchitectureInvocations p).isSome = true) ∧
      (∀ q, q ∉ ps → mapFind cs1.variantArchitectureInvocations q =
        mapFind cs.variantArchitectureInvocations q) := by
  induction ps generalizing cs with
  | nil => simp
  | cons p rest ih =>
    obtain ⟨hp, hrest⟩ := List.nodup_cons.1 hnd
    have hp1 : (p.1, p.2) ∉ rest := hp
    obtain ⟨l, hall, hmap⟩ := processPair_lists X script clang pe hm sp files phase p.1 cs p.2
    have hpnone := hfresh p (List.mem_cons_self _ _)
    have hfresh1 : ∀ q ∈ rest, mapFind (processPair X script clang pe hm sp files phase p.1 cs
        p.2).variantArchitectureInvocations q = none := by
      intro q hq
      rw [hmap, mapFind_mapInsert_of_ne _ _ _ _ (fun (e : (p.1, p.2) = q) => hp1 (by rw [e]; exact hq))]
      exact hfresh q (List.mem_cons_of_mem _ hq)
    obtain ⟨h1, h2, h3⟩ := ih hrest _ hfresh1
    have hpfind := h3 p hp
    rw [hmap, mapFind_mapInsert_self _ _ _ hpnone] at hpfind
    simp only [List.foldl_cons]
    refine ⟨?_, ?_, ?_⟩
    · rw [h1, hall, List.flatMap_cons, hpfind]
      simp
    · intro q hq
      rcases List.mem_cons.1 hq with rfl | hq
      · rw [hpfind]; rfl
      · exact h2 q hq
    · intro q hq
      have hqp : (p.1, p.2) ≠ q := fun e => hq (by rw [← e]; exact List.mem_cons_self p rest)
      rw [h3 q (fun hmem => hq (List.mem_cons_of_mem _ hmem)), hmap,
        mapFind_mapInsert_of_ne _ _ _ _ hqp]

theorem pairsOf_nodup (variants architectures : List String) (hv : variants.Nodup)
    (ha : architectures.Nodup) : (pairsOf variants architectures).Nodup :=
  List.Nodup.product hv ha

/-- C2 (amended): when no variant and no architecture is listed twice, the
global invocation list is the headermap invocation, the one returned by the
headermap resolver that `Create` constructed from the compiler of its compiler
resolver, followed by the concatenation, in iteration order (variant outer,
architecture inner), of the per-pair lists recorded in the mapping, and every
pair has a recorded list. -/
theorem C2_global_is_headermap_then_pair_lists (X : Collaborators) (pe : PhaseEnvironment)
    (phase : SourcesBuildPhase) (r : SourcesResolver)
    (h : (SourcesResolver.Create X pe phase).resolver = some r)
    (hv : pe.targetEnvironment.variants.Nodup)
    (ha : pe.targetEnvironment.architectures.Nodup) :
    ∃ (clang : ClangResolver) (hmr : HeadermapResolver),
      X.clangResolverCreate pe = some clang ∧
      X.headermapResolverCreate pe clang.compiler = some hmr ∧
      r.invocations = headermapInvocationOf X pe hmr ::
        (pairsOf pe.targetEnvironment.variants pe.targetEnvironment.architectures).flatMap
          (fun p => (mapFind r.variantArchitectureInvocations p).getD []) ∧
      ∀ p ∈ pairsOf pe.targetEnvironment.variants pe.targetEnvironment.architectures,
        (mapFind r.variantArchitectureInvocations p).isSome = true := by
  obtain ⟨script, clang, hmr, h1, h2, h3⟩ := Create_resolver_some X pe phase r h
  refine ⟨clang, hmr, h2, h3, ?_⟩
  unfold SourcesResolver.Create at h
  simp only [h1, h2, h3, processVariants_eq_foldl_pairs] at h
  have hr := (Option.some.inj h).symm
  subst hr
  have key := foldl_pairs_lists X script clang pe
    (hmr.invocation pe.target
      (X.searchPathsCreate pe.targetEnvironment.workingDirectory pe.targetEnvironment.environment)
      pe.targetEnvironment.environment pe.targetEnvironment.workingDirectory
      HeadermapInfo.empty).2
    (X.searchPathsCreate pe.targetEnvironment.workingDirectory pe.targetEnvironment.environment)
    (phase.files.foldl (resolveBuildFile pe)
      { files := [], trace := setupTrace X pe clang hmr }).files phase
    (pairsOf pe.targetEnvironment.variants pe.targetEnvironment.architectures)
    (pairsOf_nodup _ _ hv ha)
    { allInvocations := [headermapInvocationOf X pe hmr]
      variantArchitectureInvocations := []
      compilationInfo := CompilationInfo.empty
      precompiledHeaders := []
      trace := (phase.files.foldl (resolveBuildFile pe)
        { files := [], trace := setupTrace X pe clang hmr }).trace }
    (fun p _ => rfl)
  exact ⟨key.1, key.2.1⟩

/-- The example pass over one variant and two architectures satisfies the
amended C2. -/
theorem C2_global_is_headermap_then_pair_lists_witness :
    ∃ r, (SourcesResolver.Create Example.collaborators
        (Example.phaseEnvironment ["normal"] ["x86_64", "arm64"])
        { files := [Example.fileA, Example.fileP] }).resolver = some r ∧
      ∃ (clang : ClangResolver) (hmr : HeadermapResolver),
        Example.collaborators.clangResolverCreate
          (Example.phaseEnvironment ["normal"] ["x86_64", "arm64"]) = some clang ∧
        Example.collaborators.headermapResolverCreate
          (Example.phaseEnvironment ["normal"] ["x86_64", "arm64"]) clang.compiler =
            some hmr ∧
        r.invocations = headermapInvocationOf Example.collaborators
            (Example.phaseEnvironment ["normal"] ["x86_64", "arm64"]) hmr ::
          (pairsOf ["normal"] ["x86_64", "arm64"]).flatMap
            (fun p => (mapFind r.variantArchitectureInvocations p).getD []) ∧
        ∀ p ∈ pairsOf ["normal"] ["x86_64", "arm64"],
          (mapFind r.variantArchitectureInvocations p).isSome = true :=
  ⟨_, rfl, C2_global_is_headermap_then_pair_lists Example.collaborators
    (Example.phaseEnvironment ["normal"] ["x86_64", "arm64"])
    { files := [Example.fileA, Example.fileP] } _ rfl (by decide) (by decide)⟩

/-- C2 fails as stated: with one variant, one architecture and the single file
`a.m`, the global list has the headermap invocation in front of the
concatenation of the recorded lists; and with the architecture listed twice and
the file `p.m`, the second visit of the pair is appended to the global list but
not recorded. -/
theorem C2_counterexample :
    (∃ r, (Example.create ["normal"] ["x86_64"] [Example.fileA]).resolver = some r ∧
      r.invocations ≠ (pairsOf ["normal"] ["x86_64"]).flatMap
        (fun p => (mapFind r.variantArchitectureInvocations p).getD [])) ∧
    (∃ r, (Example.create ["normal"] ["x86_64", "x86_64"] [Example.fileP]).resolver = some r ∧
      r.invocations ≠ Example.headermapInvocation ::
        (pairsOf ["normal"] ["x86_64", "x86_64"]).flatMap
          (fun p => (mapFind r.variantArchitectureInvocations p).getD [])) :=
  ⟨⟨_, rfl, by decide⟩, ⟨_, rfl, by decide⟩⟩

end pbxbuild

namespace pbxbuild

/-! ## `Create` as a loop over the pairs -/

/-- When the three resolvers are constructed, `Create` returns the resolver
read off the final state of the loop over the pairs. -/
theorem Create_eq_finalState (X : Collaborators) (pe : PhaseEnvironment)
    (phase : SourcesBuildPhase) (script : ScriptResolver) (clang : ClangResolver)
    (hmr : HeadermapResolver)
    (h1 : X.scriptResolverCreate pe = some script)
    (h2 : X.clangResolverCreate pe = some clang)
    (h3 : X.headermapResolverCreate pe clang.compiler = some hmr) :
    SourcesResolver.Create X pe phase =
      { resolver := some
          { invocations := (finalState X pe phase script clang hmr).allInvocations
            variantArchitectureInvocations :=
              (finalState X pe phase script clang hmr).variantArchitectureInvocations
            linkerDriver := (finalState X pe phase script clang hmr).compilationInfo.linkerDriver
            linkerArgs :=
              (finalState X pe phase script clang hmr).compilationInfo.linkerArguments }
        trace := (finalState X pe phase script clang hmr).trace } := by
  unfold SourcesResolver.Create
  simp only [h1, h2, h3, processVariants_eq_foldl_pairs]
  rfl

/-- A property of the loop state that holds when the loop is entered and is
kept by every pair holds when the loop is left. -/
theorem finalState_induction (X : Collaborators) (pe : PhaseEnvironment)
    (phase : SourcesBuildPhase) (script : ScriptResolver) (clang : ClangResolver)
    (hmr : HeadermapResolver) (P : CreateState → Prop)
    (hinit : P (initialState X pe phase clang hmr))
    (hstep : ∀ cs p, P cs → P (pairStep X pe phase script clang hmr cs p)) :
    P (finalState X pe phase script clang hmr) := by
  unfold finalState
  generalize pairsOf pe.targetEnvironment.variants pe.targetEnvironment.architectures = ps
  generalize initialState X pe phase clang hmr = cs at hinit
  induction ps generalizing cs with
  | nil => exact hinit
  | cons p rest ih => exact ih _ (hstep cs p hinit)

/-- A property of the build-file loop state kept by every build file is kept by
the loop. -/
theorem processBuildFiles_induction (X : Collaborators) (script : ScriptResolver)
    (clang : ClangResolver) (pe : PhaseEnvironment) (hm : HeadermapInfo) (sp : SearchPaths)
    (files : List (BuildFile × TypeResolvedFile)) (phase : SourcesBuildPhase)
    (env : Environment) (P : PassState → Prop)
    (hstep : ∀ st b, P st → P (processBuildFile X script clang pe hm sp files env st b))
    (st : PassState) (h : P st) :
    P (processBuildFiles X script clang pe hm sp files phase env st) := by
  unfold processBuildFiles
  generalize phase.files = l
  induction l generalizing st with
  | nil => exact h
  | cons b rest ih => exact ih _ (hstep st b h)

theorem prepass_trace (X : Collaborators) (pe : PhaseEnvironment) (phase : SourcesBuildPhase)
    (clang : ClangResolver) (hmr : HeadermapResolver) :
    (prepass X pe phase clang hmr).trace =
      setupTrace X pe clang hmr ++ phase.files.filterMap (resolveCall pe) :=
  resolveBuildFiles_trace pe phase.files _

/-! ## Precompiled headers are generated once -/

theorem CreateCompilation_pchInv (X : Collaborators) (clang : ClangResolver)
    (b : BuildFile) (file : TypeResolvedFile) (env : Environment) (pe : PhaseEnvironment)
    (hm : HeadermapInfo) (sp : SearchPaths) (st : PassState)
    (h : PchInv X st.trace st.precompiledHeaders) :
    PchInv X (CreateCompilation X clang b file env pe hm sp st).trace
      (CreateCompilation X clang b file env pe hm sp st).precompiledHeaders := by
  unfold CreateCompilation
  simp only
  split
  · intro hash
    simpa [Call.isPrecompiledHeaderCall, Call.precompiledHeader] using h hash
  · split
    · intro hash
      simpa [Call.isPrecompiledHeaderCall, Call.precompiledHeader] using h hash
    · rename_i info hinfo hnew
      intro hash
      obtain ⟨hle, hzero⟩ := h hash
      by_cases e : X.precompiledHeaderHash info = hash
      · subst e
        have h0 := hzero hnew
        simp [List.countP_append, List.countP_cons, Call.isPrecompiledHeaderCall,
          Call.precompiledHeader, h0]
      · have hne : ¬ hash = X.precompiledHeaderHash info := fun e1 => e e1.symm
        simp only [List.countP_append, List.countP_cons, List.countP_nil,
          Call.isPrecompiledHeaderCall, Call.precompiledHeader, List.mem_cons, not_or]
        simp only [e, decide_False]
        refine ⟨by simpa using hle, fun hh => ?_⟩
        simpa using hzero hh.2

theorem processBuildFile_pchInv (X : Collaborators) (script : ScriptResolver)
    (clang : ClangResolver) (pe : PhaseEnvironment) (hm : HeadermapInfo) (sp : SearchPaths)
    (files : List (BuildFile × TypeResolvedFile)) (env : Environment) (st : PassState)
    (b : BuildFile) (h : PchInv X st.trace st.precompiledHeaders) :
    PchInv X (processBuildFile X script clang pe hm sp files env st b).trace
      (processBuildFile X script clang pe hm sp files env st b).precompiledHeaders := by
  unfold processBuildFile
  simp only
  split
  · exact h
  · split
    · split
      · split
        · apply CreateCompilation_pchInv
          intro hash
          simpa [Call.isPrecompiledHeaderCall, Call.precompiledHeader] using h hash
        · intro hash
          simpa [Call.isPrecompiledHeaderCall, Call.precompiledHeader] using h hash
      · split
        · intro hash
          simpa [Call.isPrecompiledHeaderCall, Call.precompiledHeader] using h hash
        · intro hash
          simpa [Call.isPrecompiledHeaderCall, Call.precompiledHeader] using h hash
    · intro hash
      simpa [Call.isPrecompiledHeaderCall, Call.precompiledHeader] using h hash

theorem processPair_pchInv (X : Collaborators) (script : ScriptResolver)
    (clang : ClangResolver) (pe : PhaseEnvironment) (hm : HeadermapInfo) (sp : SearchPaths)
    (files : List (BuildFile × TypeResolvedFile)) (phase : SourcesBuildPhase)
    (variant : String) (cs : CreateState) (arch : String)
    (h : PchInv X cs.trace cs.precompiledHeaders) :
    PchInv X (processPair X script clang pe hm sp files phase variant cs arch).trace
      (processPair X script clang pe hm sp files phase variant cs arch).precompiledHeaders :=
  processBuildFiles_induction X script clang pe hm sp files phase
    (currentEnvironment X pe.targetEnvironment variant arch)
    (fun st => PchInv X st.trace st.precompiledHeaders)
    (fun st b hst => processBuildFile_pchInv X script clang pe hm sp files _ st b hst) _ h

theorem isPrecompiledHeaderCall_of_resolveCall (X : Collaborators) (pe : PhaseEnvironment)
    (hash : String) (l : List BuildFile) :
    (l.filterMap (resolveCall pe)).countP (Call.isPrecompiledHeaderCall X hash) = 0 := by
  rw [List.countP_eq_zero]
  intro c hc
  obtain ⟨b, -, hb⟩ := List.mem_filterMap.1 hc
  unfold resolveCall at hb
  cases hf : fileReferenceOf b with
  | none => simp [hf] at hb
  | some ref =>
    simp only [hf, Option.map_some', Option.some.injEq] at hb
    subst hb
    simp [Call.isPrecompiledHeaderCall, Call.precompiledHeader]

theorem initialState_pchInv (X : Collaborators) (pe : PhaseEnvironment)
    (phase : SourcesBuildPhase) (clang : ClangResolver) (hmr : HeadermapResolver) :
    PchInv X (initialState X pe phase clang hmr).trace
      (initialState X pe phase clang hmr).precompiledHeaders := by
  intro hash
  have h0 : (initialState X pe phase clang hmr).trace.countP
      (Call.isPrecompiledHeaderCall X hash) = 0 := by
    show (prepass X pe phase clang hmr).trace.countP _ = 0
    rw [prepass_trace, List.countP_append, isPrecompiledHeaderCall_of_resolveCall]
    simp [setupTrace, Call.isPrecompiledHeaderCall, Call.precompiledHeader]
  rw [h0]
  exact ⟨Nat.zero_le _, fun _ => rfl⟩

theorem finalState_pchInv (X : Collaborators) (pe : PhaseEnvironment)
    (phase : SourcesBuildPhase) (script : ScriptResolver) (clang : ClangResolver)
    (hmr : HeadermapResolver) :
    PchInv X (finalState X pe phase script clang hmr).trace
      (finalState X pe phase script clang hmr).precompiledHeaders :=
  finalState_induction X pe phase script clang hmr
    (fun cs => PchInv X cs.trace cs.precompiledHeaders)
    (initialState_pchInv X pe phase clang hmr)
    (fun cs p h => processPair_pchInv X script clang pe _ _ _ phase p.1 cs p.2 h)

end pbxbuild

namespace pbxbuild

theorem emitted_of_resolveCall (pe : PhaseEnvironment) (l : List BuildFile) :
    (l.filterMap (resolveCall pe)).filterMap Call.emitted = [] := by
  rw [List.filterMap_filterMap, List.filterMap_eq_nil_iff]
  intro b _
  unfold resolveCall
  cases fileReferenceOf b <;> simp [Call.emitted]

/-- The global vector of a returned resolver is the list of the invocations
returned by the logged calls, in call order. -/
theorem Create_invocations_eq_emitted (X : Collaborators) (pe : PhaseEnvironment)
    (phase : SourcesBuildPhase) (r : SourcesResolver)
    (h : (SourcesResolver.Create X pe phase).resolver = some r) :
    r.invocations = (SourcesResolver.Create X pe phase).trace.filterMap Call.emitted := by
  obtain ⟨script, clang, hmr, h1, h2, h3⟩ := Create_resolver_some X pe phase r h
  obtain ⟨r0, seg, hr, ht, hi, -⟩ := Create_shape X pe phase script clang hmr h1 h2 h3
  have hrr : r0 = r := Option.some.inj (hr.symm.trans h)
  subst hrr
  rw [ht, hi, List.filterMap_append, List.filterMap_append, emitted_of_resolveCall]
  simp [setupTrace, headermapInvocationOf, Call.emitted]

/-- In every trace of `Create`, a hash has at most one
`precompiledHeaderInvocation` call. -/
theorem Create_pch_count_le_one (X : Collaborators) (pe : PhaseEnvironment)
    (phase : SourcesBuildPhase) (hash : String) :
    (SourcesResolver.Create X pe phase).trace.countP
      (Call.isPrecompiledHeaderCall X hash) ≤ 1 := by
  cases h1 : X.scriptResolverCreate pe with
  | none =>
    simp [SourcesResolver.Create, h1, Call.isPrecompiledHeaderCall, Call.precompiledHeader]
  | some script =>
    cases h2 : X.clangResolverCreate pe with
    | none =>
      simp [SourcesResolver.Create, h1, h2, Call.isPrecompiledHeaderCall,
        Call.precompiledHeader]
    | some clang =>
      cases h3 : X.headermapResolverCreate pe clang.compiler with
      | none =>
        simp [SourcesResolver.Create, h1, h2, h3, Call.isPrecompiledHeaderCall,
          Call.precompiledHeader]
      | some hmr =>
        rw [Create_eq_finalState X pe phase script clang hmr h1 h2 h3]
        exact (finalState_pchInv X pe phase script clang hmr hash).1

/-- C3: within one call of `SourcesResolver::Create`, for every
precompiled-header hash, `precompiledHeaderInvocation` is called at most once
for a descriptor with that hash; the global list is the list of the invocations
returned by the logged calls, so it holds at most one precompiled-header
invocation per hash; and once a part of the pass has made the call for a hash,
the rest of the pass (later files, later pairs) makes none. -/
theorem C3_precompiled_header_generated_once (X : Collaborators) (pe : PhaseEnvironment)
    (phase : SourcesBuildPhase) (hash : String) :
    (SourcesResolver.Create X pe phase).trace.countP
        (Call.isPrecompiledHeaderCall X hash) ≤ 1 ∧
      (∀ r, (SourcesResolver.Create X pe phase).resolver = some r →
        r.invocations = (SourcesResolver.Create X pe phase).trace.filterMap Call.emitted) ∧
      (∀ t1 t2, (SourcesResolver.Create X pe phase).trace = t1 ++ t2 →
        0 < t1.countP (Call.isPrecompiledHeaderCall X hash) →
        t2.countP (Call.isPrecompiledHeaderCall X hash) = 0) := by
  refine ⟨Create_pch_count_le_one X pe phase hash,
    fun r h => Create_invocations_eq_emitted X pe phase r h, ?_⟩
  intro t1 t2 ht hpos
  have hle := Create_pch_count_le_one X pe phase hash
  rw [ht, List.countP_append] at hle
  omega

end pbxbuild

namespace pbxbuild

/-! ## A precompiled header comes right after its trigger -/

/-- Splitting a list with one more element at the end: the split point is the
new element or lies in the old list. -/
theorem snoc_eq_split {α : Type} (t : List α) (x : α) (pre : List α) (c : α)
    (post : List α) (h : t ++ [x] = pre ++ c :: post) :
    (post = [] ∧ t = pre ∧ x = c) ∨ ∃ post0, post = post0 ++ [x] ∧ t = pre ++ c :: post0 := by
  rcases List.eq_nil_or_concat post with rfl | ⟨post0, y, rfl⟩
  · left
    have h2 := List.append_inj' h rfl
    exact ⟨rfl, h2.1, by simpa using h2.2⟩
  · right
    rw [List.concat_eq_append] at h ⊢
    have h3 : t ++ [x] = (pre ++ c :: post0) ++ [y] := by simpa using h
    have h2 := List.append_inj' h3 rfl
    have hxy : x = y := by simpa using h2.2
    subst hxy
    exact ⟨post0, rfl, h2.1⟩

theorem pchAfterSource_snoc (clang : ClangResolver) (t : List Call) (x : Call)
    (h : PchAfterSource clang t) (hx : x.precompiledHeader = none) :
    PchAfterSource clang (t ++ [x]) := by
  intro pre c post hsplit hc
  rcases snoc_eq_split t x pre c post hsplit with ⟨-, -, rfl⟩ | ⟨post0, -, ht⟩
  · exact absurd hx hc
  · exact h pre c post0 ht hc

theorem pchAfterSource_snoc_pch (clang : ClangResolver) (t : List Call) (s x : Call)
    (h : PchAfterSource clang (t ++ [s])) (hx : Call.Triggers clang s x) :
    PchAfterSource clang (t ++ [s] ++ [x]) := by
  intro pre c post hsplit hc
  rcases snoc_eq_split (t ++ [s]) x pre c post hsplit with ⟨-, hpre, rfl⟩ | ⟨post0, -, ht⟩
  · exact ⟨t, s, hpre.symm, hx⟩
  · exact h pre c post0 ht hc

theorem pchAfterSource_of_none (clang : ClangResolver) (t : List Call)
    (h : ∀ c ∈ t, c.precompiledHeader = none) : PchAfterSource clang t := by
  intro pre c post hsplit hc
  exact absurd (h c (by rw [hsplit]; simp)) hc

theorem CreateCompilation_pchAfterSource (X : Collaborators) (clang : ClangResolver)
    (b : BuildFile) (file : TypeResolvedFile) (env : Environment) (pe : PhaseEnvironment)
    (hm : HeadermapInfo) (sp : SearchPaths) (st : PassState)
    (h : PchAfterSource clang st.trace) :
    PchAfterSource clang (CreateCompilation X clang b file env pe hm sp st).trace := by
  unfold CreateCompilation
  simp only
  split
  · exact pchAfterSource_snoc clang _ _ h rfl
  · split
    · exact pchAfterSource_snoc clang _ _ h rfl
    · rename_i info hinfo hnew
      exact pchAfterSource_snoc_pch clang _ _ _ (pchAfterSource_snoc clang _ _ h rfl)
        ⟨hinfo, rfl, rfl, rfl⟩

theorem processBuildFile_pchAfterSource (X : Collaborators) (script : ScriptResolver)
    (clang : ClangResolver) (pe : PhaseEnvironment) (hm : HeadermapInfo) (sp : SearchPaths)
    (files : List (BuildFile × TypeResolvedFile)) (env : Environment) (st : PassState)
    (b : BuildFile) (h : PchAfterSource clang st.trace) :
    PchAfterSource clang (processBuildFile X script clang pe hm sp files env st b).trace := by
  unfold processBuildFile
  simp only
  split
  · exact h
  · have h0 := fun file => pchAfterSource_snoc clang st.trace (Call.buildRulesResolve file) h rfl
    split
    · split
      · split
        · exact CreateCompilation_pchAfterSource X clang b _ env pe hm sp _ (h0 _)
        · exact pchAfterSource_snoc clang _ _ (h0 _) rfl
      · split
        · exact pchAfterSource_snoc clang _ _ (h0 _) rfl
        · exact h0 _
    · exact pchAfterSource_snoc clang _ _ (h0 _) rfl

theorem precompiledHeader_of_resolveCall (pe : PhaseEnvironment) (l : List BuildFile) :
    ∀ c ∈ l.filterMap (resolveCall pe), c.precompiledHeader = none := by
  intro c hc
  obtain ⟨b, -, hb⟩ := List.mem_filterMap.1 hc
  unfold resolveCall at hb
  cases hf : fileReferenceOf b with
  | none => simp [hf] at hb
  | some ref =>
    simp only [hf, Option.map_some', Option.some.injEq] at hb
    subst hb
    rfl

theorem finalState_pchAfterSource (X : Collaborators) (pe : PhaseEnvironment)
    (phase : SourcesBuildPhase) (script : ScriptResolver) (clang : ClangResolver)
    (hmr : HeadermapResolver) :
    PchAfterSource clang (finalState X pe phase script clang hmr).trace := by
  refine finalState_induction X pe phase script clang hmr
    (fun cs => PchAfterSource clang cs.trace) ?_ ?_
  · apply pchAfterSource_of_none
    show ∀ c ∈ (prepass X pe phase clang hmr).trace, c.precompiledHeader = none
    rw [prepass_trace]
    intro c hc
    rcases List.mem_append.1 hc with h | h
    · simp only [setupTrace, List.mem_cons, List.mem_singleton, List.not_mem_nil,
        or_false] at h
      rcases h with rfl | rfl | rfl | rfl | rfl <;> rfl
    · exact precompiledHeader_of_resolveCall pe _ c h
  · intro cs p h
    exact processBuildFiles_induction X script clang pe _ _ _ phase _
      (fun st => PchAfterSource clang st.trace)
      (fun st b hst => processBuildFile_pchAfterSource X script clang pe _ _ _ _ st b hst) _ h

/-- C4 (amended): a compilation that triggers a precompiled-header invocation
for a hash not seen before appends its compile invocation and then the
precompiled-header invocation to the per-pair list; and in the global list of a
returned resolver every precompiled-header invocation stands immediately after
the compile invocation that triggered it, so after that compile invocation and
before every invocation produced later in the pass. -/
theorem C4_precompiled_header_follows_trigger (X : Collaborators) :
    (∀ (clang : ClangResolver) (b : BuildFile) (file : TypeResolvedFile) (env : Environment)
        (pe : PhaseEnvironment) (hm : HeadermapInfo) (sp : SearchPaths) (st : PassState)
        (info : PrecompiledHeaderInfo),
      (clang.sourceInvocation file b.compilerFlags (outputBaseName X pe.targetEnvironment b file)
        hm sp st.compilationInfo env pe.targetEnvironment.workingDirectory
        ).2.precompiledHeaderInfo = some info →
      X.precompiledHeaderHash info ∉ st.precompiledHeaders →
      (CreateCompilation X clang b file env pe hm sp st).invocations =
        st.invocations ++
          [(clang.sourceInvocation file b.compilerFlags
              (outputBaseName X pe.targetEnvironment b file) hm sp st.compilationInfo env
              pe.targetEnvironment.workingDirectory).1,
            clang.precompiledHeaderInvocation info env pe.targetEnvironment.workingDirectory]) ∧
    (∀ (pe : PhaseEnvironment) (phase : SourcesBuildPhase) (r : SourcesResolver)
        (clang : ClangResolver) (pre post : List Call) (info : PrecompiledHeaderInfo)
        (env : Environment) (wd : String) (pch : ToolInvocation),
      (SourcesResolver.Create X pe phase).resolver = some r →
      X.clangResolverCreate pe = some clang →
      (SourcesResolver.Create X pe phase).trace =
        pre ++ Call.precompiledHeaderInvocation info env wd pch :: post →
      ∃ (pre0 : List Call) (s : Call) (compile : ToolInvocation),
        pre = pre0 ++ [s] ∧
        Call.Triggers clang s (Call.precompiledHeaderInvocation info env wd pch) ∧
        s.emitted = some compile ∧
        r.invocations =
          pre0.filterMap Call.emitted ++ compile :: pch :: post.filterMap Call.emitted) := by
  constructor
  · intro clang b file env pe hm sp st info hinfo hnew
    unfold CreateCompilation
    simp only [hinfo]
    rw [if_neg hnew]
    simp
  · intro pe phase r clang pre post info env wd pch hr hc ht
    obtain ⟨script, clang1, hmr, h1, h2, h3⟩ := Create_resolver_some X pe phase r hr
    have hcc : clang1 = clang := Option.some.inj (h2.symm.trans hc)
    subst hcc
    have hinv := Create_invocations_eq_emitted X pe phase r hr
    have hpas := finalState_pchAfterSource X pe phase script clang1 hmr
    rw [Create_eq_finalState X pe phase script clang1 hmr h1 h2 h3] at ht
    replace ht : (finalState X pe phase script clang1 hmr).trace =
      pre ++ Call.precompiledHeaderInvocation info env wd pch :: post := ht
    obtain ⟨pre0, s, hpre, htrig⟩ := hpas pre _ post ht (by simp [Call.precompiledHeader])
    have hs : ∃ compile, s.emitted = some compile := by
      cases s <;> simp [Call.Triggers] at htrig
      exact ⟨_, rfl⟩
    obtain ⟨compile, hcompile⟩ := hs
    refine ⟨pre0, s, compile, hpre, htrig, hcompile, ?_⟩
    rw [hinv, Create_eq_finalState X pe phase script clang1 hmr h1 h2 h3]
    show List.filterMap Call.emitted (finalState X pe phase script clang1 hmr).trace = _
    have e1 : Call.emitted (Call.precompiledHeaderInvocation info env wd pch) = some pch := rfl
    rw [ht, hpre]
    simp [List.filterMap_append, List.filterMap_cons, hcompile, e1]

end pbxbuild

namespace pbxbuild

/-- In the example pass over `p.m` and `q.m`, which share a prefix header, the
precompiled-header invocation follows the compile invocation of `p.m` in the
pair-local list and in the global list. -/
theorem C4_precompiled_header_follows_trigger_witness :
    (CreateCompilation Example.collaborators Example.clang Example.fileP
        (Example.resolved "p.m") Example.environment
        (Example.phaseEnvironment ["normal"] ["x86_64"]) HeadermapInfo.empty
        (searchPathsOf Example.collaborators (Example.phaseEnvironment ["normal"] ["x86_64"]))
        Example.emptyState).invocations =
      [] ++ [(Example.clang.sourceInvocation (Example.resolved "p.m") ["-prefix"] "p"
          HeadermapInfo.empty
          (searchPathsOf Example.collaborators (Example.phaseEnvironment ["normal"] ["x86_64"]))
          CompilationInfo.empty Example.environment "/src").1,
        Example.clang.precompiledHeaderInvocation Example.prefixInfo Example.environment
          "/src"] ∧
    ∃ r, (Example.create ["normal"] ["x86_64"] [Example.fileP, Example.fileQ]).resolver =
        some r ∧
      ∃ (pre0 : List Call) (s : Call) (compile : ToolInvocation),
        (Example.create ["normal"] ["x86_64"] [Example.fileP, Example.fileQ]).trace.take 9 =
          pre0 ++ [s] ∧
        Call.Triggers Example.clang s
          (Call.precompiledHeaderInvocation Example.prefixInfo Example.environment "/src"
            Example.precompile) ∧
        s.emitted = some compile ∧
        r.invocations = pre0.filterMap Call.emitted ++ compile :: Example.precompile ::
          ((Example.create ["normal"] ["x86_64"]
            [Example.fileP, Example.fileQ]).trace.drop 10).filterMap Call.emitted :=
  ⟨(C4_precompiled_header_follows_trigger Example.collaborators).1 Example.clang
      Example.fileP (Example.resolved "p.m") Example.environment
      (Example.phaseEnvironment ["normal"] ["x86_64"]) HeadermapInfo.empty
      (searchPathsOf Example.collaborators (Example.phaseEnvironment ["normal"] ["x86_64"]))
      Example.emptyState Example.prefixInfo (by decide) (by decide),
    _, rfl,
    (C4_precompiled_header_follows_trigger Example.collaborators).2
      (Example.phaseEnvironment ["normal"] ["x86_64"])
      { files := [Example.fileP, Example.fileQ] } _ Example.clang
      ((Example.create ["normal"] ["x86_64"] [Example.fileP, Example.fileQ]).trace.take 9)
      ((Example.create ["normal"] ["x86_64"] [Example.fileP, Example.fileQ]).trace.drop 10)
      Example.prefixInfo Example.environment "/src" Example.precompile rfl rfl (by decide)⟩

/-- C4 fails as stated: in the example pass over `p.m` and `q.m`, which share a
prefix header, the precompiled-header invocation is not ahead of the compile
invocation of `p.m` that triggered it, neither in the per-pair list nor in the
global list. -/
theorem C4_counterexample :
    ∃ r, (Example.create ["normal"] ["x86_64"] [Example.fileP, Example.fileQ]).resolver =
        some r ∧
      r.invocations = [Example.headermapInvocation,
        Example.compile "p.m" "p" "x86_64" ["-prefix"], Example.precompile,
        Example.compile "q.m" "q" "x86_64" ["-prefix"]] ∧
      mapFind r.variantArchitectureInvocations ("normal", "x86_64") =
        some [Example.compile "p.m" "p" "x86_64" ["-prefix"], Example.precompile,
          Example.compile "q.m" "q" "x86_64" ["-prefix"]] ∧
      ¬ (r.invocations.indexOf Example.precompile <
        r.invocations.indexOf (Example.compile "p.m" "p" "x86_64" ["-prefix"])) ∧
      ¬ (((mapFind r.variantArchitectureInvocations ("normal", "x86_64")).getD []).indexOf
          Example.precompile <
        ((mapFind r.variantArchitectureInvocations ("normal", "x86_64")).getD []).indexOf
          (Example.compile "p.m" "p" "x86_64" ["-prefix"])) :=
  ⟨_, rfl, by decide, by decide, by decide, by decide⟩

end pbxbuild

namespace pbxbuild

/-! ## A file without a build rule -/

theorem resolveBuildFile_find (pe : PhaseEnvironment) (rs : ResolveState) (b k : BuildFile) :
    mapFind (resolveBuildFile pe rs b).files k =
      match mapFind rs.files k with
      | some f => some f
      | none => if b = k then resolvedFileOf pe b else none := by
  unfold resolveBuildFile resolvedFileOf
  cases hf : fileReferenceOf b with
  | none =>
    simp only
    cases mapFind rs.files k <;> simp
  | some ref =>
    simp only
    cases hr : pe.resolveFileReference ref pe.targetEnvironment.environment with
    | none =>
      simp only
      cases mapFind rs.files k <;> simp
    | some file =>
      simp only
      by_cases hbk : b = k
      · subst hbk
        cases hk : mapFind rs.files b with
        | none => simp [mapFind_mapInsert_self _ _ _ hk]
        | some f => simp [mapInsert, hk]
      · rw [mapFind_mapInsert_of_ne _ _ _ _ hbk]
        cases mapFind rs.files k <;> simp [hbk]

/-- The map built by the pre-pass holds, for each build file of the list that
is not in the map yet, the file it resolves to. -/
theorem resolveBuildFiles_find (pe : PhaseEnvironment) (l : List BuildFile)
    (rs : ResolveState) (k : BuildFile) :
    mapFind (l.foldl (resolveBuildFile pe) rs).files k =
      match mapFind rs.files k with
      | some f => some f
      | none => if k ∈ l then resolvedFileOf pe k else none := by
  induction l generalizing rs with
  | nil => cases hk : mapFind rs.files k <;> simp [hk]
  | cons b rest ih =>
    rw [List.foldl_cons, ih, resolveBuildFile_find]
    cases hk : mapFind rs.files k with
    | some f => rfl
    | none =>
      by_cases hbk : b = k
      · subst hbk
        cases hr : resolvedFileOf pe b with
        | none => simp
        | some f => simp
      · have hkb : ¬ k = b := fun e => hbk e.symm
        simp [hbk, hkb]

theorem prepass_find (X : Collaborators) (pe : PhaseEnvironment) (phase : SourcesBuildPhase)
    (clang : ClangResolver) (hmr : HeadermapResolver) (k : BuildFile) :
    mapFind (prepass X pe phase clang hmr).files k =
      if k ∈ phase.files then resolvedFileOf pe k else none := by
  unfold prepass
  rw [resolveBuildFiles_find]
  rfl

theorem CreateCompilation_same (X : Collaborators) (clang : ClangResolver)
    (b : BuildFile) (file : TypeResolvedFile) (env : Environment) (pe : PhaseEnvironment)
    (hm : HeadermapInfo) (sp : SearchPaths) (s t : PassState) (h : s.Same t) :
    (CreateCompilation X clang b file env pe hm sp s).Same
      (CreateCompilation X clang b file env pe hm sp t) := by
  obtain ⟨h1, h2, h3⟩ := h
  unfold CreateCompilation
  simp only [h1, h2, h3]
  split
  · exact ⟨rfl, rfl, rfl⟩
  · split
    · exact ⟨rfl, rfl, rfl⟩
    · exact ⟨rfl, rfl, rfl⟩

/-- The body of the build-file loop reads the trace nowhere and the `files` map
only at the build file. -/
theorem processBuildFile_same (X : Collaborators) (script : ScriptResolver)
    (clang : ClangResolver) (pe : PhaseEnvironment) (hm : HeadermapInfo) (sp : SearchPaths)
    (files1 files2 : List (BuildFile × TypeResolvedFile)) (env : Environment)
    (s t : PassState) (b : BuildFile) (h : s.Same t)
    (hfind : mapFind files1 b = mapFind files2 b) :
    (processBuildFile X script clang pe hm sp files1 env s b).Same
      (processBuildFile X script clang pe hm sp files2 env t b) := by
  unfold processBuildFile
  simp only [hfind]
  split
  · exact h
  · split
    · split
      · split
        · apply CreateCompilation_same
          exact h
        · exact ⟨h.1, h.2.1, by simp [h.2.2]⟩
      · split
        · exact ⟨h.1, h.2.1, by simp [h.2.2]⟩
        · exact h
    · exact h

/-- A resolved file that no build rule matches leaves the loop state as it is,
up to the trace. -/
theorem processBuildFile_no_rule (X : Collaborators) (script : ScriptResolver)
    (clang : ClangResolver) (pe : PhaseEnvironment) (hm : HeadermapInfo) (sp : SearchPaths)
    (files : List (BuildFile × TypeResolvedFile)) (env : Environment) (st : PassState)
    (b : BuildFile) (file : TypeResolvedFile) (hfind : mapFind files b = some file)
    (hrule : pe.targetEnvironment.buildRules file = none) :
    processBuildFile X script clang pe hm sp files env st b =
      { st with trace := st.trace ++ [Call.buildRulesResolve file,
          Call.warning file.filePath file.fileType.identifier] } := by
  unfold processBuildFile
  simp [hfind, hrule]

theorem foldl_processBuildFile_filter (X : Collaborators) (script : ScriptResolver)
    (clang : ClangResolver) (pe : PhaseEnvironment) (hm : HeadermapInfo) (sp : SearchPaths)
    (files1 files2 : List (BuildFile × TypeResolvedFile)) (env : Environment)
    (b : BuildFile) (file : TypeResolvedFile)
    (hrule : pe.targetEnvironment.buildRules file = none)
    (l : List BuildFile)
    (hb : b ∈ l → mapFind files1 b = some file)
    (hother : ∀ k, k ≠ b → mapFind files1 k = mapFind files2 k)
    (s t : PassState) (h : s.Same t) :
    (l.foldl (processBuildFile X script clang pe hm sp files1 env) s).Same
      ((l.filter (fun k => decide (k ≠ b))).foldl
        (processBuildFile X script clang pe hm sp files2 env) t) := by
  induction l generalizing s t with
  | nil => exact h
  | cons k rest ih =>
    have hb1 : b ∈ rest → mapFind files1 b = some file :=
      fun hm1 => hb (List.mem_cons_of_mem _ hm1)
    by_cases hkb : k = b
    · subst hkb
      rw [List.foldl_cons, List.filter_cons_of_neg (by simp)]
      apply ih hb1
      rw [processBuildFile_no_rule X script clang pe hm sp files1 env s k file
        (hb (List.mem_cons_self _ _)) hrule]
      exact h
    · rw [List.foldl_cons, List.filter_cons_of_pos (by simpa using hkb), List.foldl_cons]
      apply ih hb1
      exact processBuildFile_same X script clang pe hm sp files1 files2 env s t k h
        (hother k hkb)

theorem foldl_pairs_same {σ : Type} (R : σ → σ → Prop) (f g : σ → String × String → σ)
    (hstep : ∀ s t p, R s t → R (f s p) (g t p)) (ps : List (String × String)) (s t : σ)
    (h : R s t) : R (ps.foldl f s) (ps.foldl g t) := by
  induction ps generalizing s t with
  | nil => exact h
  | cons p rest ih => exact ih _ _ (hstep s t p h)

/-- C7: a build file that resolves to a file for which build-rule lookup
returns no match leaves the per-pair list, the shared `CompilationInfo` and the
precompiled-header hash set as they are when the loop body handles it, and the
resolver `Create` returns (global list, per-pair lists, linker driver and
arguments) is the one it returns for the phase without that build file. -/
theorem C7_unmatched_file_contributes_nothing (X : Collaborators) (pe : PhaseEnvironment)
    (phase : SourcesBuildPhase) (b : BuildFile) (file : TypeResolvedFile)
    (hres : resolvedFileOf pe b = some file)
    (hrule : pe.targetEnvironment.buildRules file = none) :
    (∀ (script : ScriptResolver) (clang : ClangResolver) (hm : HeadermapInfo)
        (sp : SearchPaths) (files : List (BuildFile × TypeResolvedFile)) (env : Environment)
        (st : PassState), mapFind files b = some file →
      (processBuildFile X script clang pe hm sp files env st b).invocations = st.invocations ∧
      (processBuildFile X script clang pe hm sp files env st b).compilationInfo =
        st.compilationInfo ∧
      (processBuildFile X script clang pe hm sp files env st b).precompiledHeaders =
        st.precompiledHeaders) ∧
    (SourcesResolver.Create X pe phase).resolver =
      (SourcesResolver.Create X pe
        { files := phase.files.filter (fun k => decide (k ≠ b)) }).resolver := by
  constructor
  · intro script clang hm sp files env st hfind
    rw [processBuildFile_no_rule X script clang pe hm sp files env st b file hfind hrule]
    exact ⟨rfl, rfl, rfl⟩
  · cases h1 : X.scriptResolverCreate pe with
    | none => simp [SourcesResolver.Create, h1]
    | some script =>
      cases h2 : X.clangResolverCreate pe with
      | none => simp [SourcesResolver.Create, h1, h2]
      | some clang =>
        cases h3 : X.headermapResolverCreate pe clang.compiler with
        | none => simp [SourcesResolver.Create, h1, h2, h3]
        | some hmr =>
          rw [Create_eq_finalState X pe phase script clang hmr h1 h2 h3,
            Create_eq_finalState X pe _ script clang hmr h1 h2 h3]
          have key : (finalState X pe phase script clang hmr).Same
              (finalState X pe { files := phase.files.filter (fun k => decide (k ≠ b)) }
                script clang hmr) := by
            unfold finalState
            apply foldl_pairs_same CreateState.Same
            · intro s t p hst
              obtain ⟨e1, e2, e3, e4⟩ := hst
              have hloop := foldl_processBuildFile_filter X script clang pe
                (headermapInfoOf X pe hmr) (searchPathsOf X pe)
                (prepass X pe phase clang hmr).files
                (prepass X pe { files := phase.files.filter (fun k => decide (k ≠ b)) }
                  clang hmr).files
                (currentEnvironment X pe.targetEnvironment p.1 p.2) b file hrule phase.files
                (fun hmem => by rw [prepass_find, if_pos hmem, hres])
                (fun k hk => by
                  rw [prepass_find, prepass_find]
                  simp [List.mem_filter, hk])
                { compilationInfo := s.compilationInfo
                  precompiledHeaders := s.precompiledHeaders
                  invocations := []
                  trace := s.trace }
                { compilationInfo := t.compilationInfo
                  precompiledHeaders := t.precompiledHeaders
                  invocations := []
                  trace := t.trace }
                ⟨e3, e4, rfl⟩
              obtain ⟨l1, l2, l3⟩ := hloop
              refine ⟨?_, ?_, l1, l2⟩
              · show s.allInvocations ++ _ = t.allInvocations ++ _
                rw [e1]
                exact congrArg _ l3
              · show mapInsert s.variantArchitectureInvocations _ _ =
                  mapInsert t.variantArchitectureInvocations _ _
                rw [e2]
                exact congrArg _ l3
            · exact ⟨rfl, rfl, rfl, rfl⟩
          obtain ⟨k1, k2, k3, k4⟩ := key
          simp only [k1, k2, k3]

end pbxbuild

namespace pbxbuild

/-! ## Per-file contributions -/

theorem CreateCompilation_invocations (X : Collaborators) (clang : ClangResolver)
    (b : BuildFile) (file : TypeResolvedFile) (env : Environment) (pe : PhaseEnvironment)
    (hm : HeadermapInfo) (sp : SearchPaths) (st : PassState) (t : List Call) :
    (CreateCompilation X clang b file env pe hm sp st).invocations =
      st.invocations ++
        (CreateCompilation X clang b file env pe hm sp
          { st with invocations := [], trace := t }).invocations := by
  unfold CreateCompilation
  simp only
  split
  · simp
  · split <;> simp

/-- The body of the build-file loop appends to the pair-local vector the
invocations it produces for the build file. -/
theorem processBuildFile_invocations (X : Collaborators) (script : ScriptResolver)
    (clang : ClangResolver) (pe : PhaseEnvironment) (hm : HeadermapInfo) (sp : SearchPaths)
    (files : List (BuildFile × TypeResolvedFile)) (env : Environment) (st : PassState)
    (b : BuildFile) :
    (processBuildFile X script clang pe hm sp files env st b).invocations =
      st.invocations ++ fileInvocations X script clang pe hm sp files env st b := by
  unfold fileInvocations processBuildFile
  simp only
  split
  · simp
  · split
    · split
      · split
        · exact CreateCompilation_invocations X clang b _ env pe hm sp _ _
        · simp
      · split <;> simp
    · simp

theorem foldl_processBuildFile_invocations (X : Collaborators) (script : ScriptResolver)
    (clang : ClangResolver) (pe : PhaseEnvironment) (hm : HeadermapInfo) (sp : SearchPaths)
    (files : List (BuildFile × TypeResolvedFile)) (env : Environment) (l : List BuildFile)
    (st : PassState) :
    (l.foldl (processBuildFile X script clang pe hm sp files env) st).invocations =
      st.invocations ++ (perFileLists X script clang pe hm sp files env st l).flatten := by
  induction l generalizing st with
  | nil => simp [perFileLists]
  | cons b rest ih =>
    rw [List.foldl_cons, ih, processBuildFile_invocations]
    simp [perFileLists, List.append_assoc]

theorem perFileLists_length (X : Collaborators) (script : ScriptResolver)
    (clang : ClangResolver) (pe : PhaseEnvironment) (hm : HeadermapInfo) (sp : SearchPaths)
    (files : List (BuildFile × TypeResolvedFile)) (env : Environment) (l : List BuildFile)
    (st : PassState) :
    (perFileLists X script clang pe hm sp files env st l).length = l.length := by
  induction l generalizing st with
  | nil => rfl
  | cons b rest ih => simp [perFileLists, ih]

/-- A resolved file matched by the compiler-family rule is handed to
`CreateCompilation`. -/
theorem processBuildFile_gcc (X : Collaborators) (script : ScriptResolver)
    (clang : ClangResolver) (pe : PhaseEnvironment) (hm : HeadermapInfo) (sp : SearchPaths)
    (files : List (BuildFile × TypeResolvedFile)) (env : Environment) (st : PassState)
    (b : BuildFile) (file : TypeResolvedFile) (rule : BuildRule) (tool : Tool)
    (hfind : mapFind files b = some file)
    (hrule : pe.targetEnvironment.buildRules file = some rule)
    (htool : rule.tool = some tool)
    (hid : tool.identifier = "com.apple.compilers.gcc") :
    processBuildFile X script clang pe hm sp files env st b =
      CreateCompilation X clang b file env pe hm sp
        { st with trace := st.trace ++ [Call.buildRulesResolve file] } := by
  unfold processBuildFile
  simp [hfind, hrule, htool, hid]

/-- A compilation that leaves no precompiled-header descriptor appends its
compile invocation and nothing else. -/
theorem CreateCompilation_no_pch (X : Collaborators) (clang : ClangResolver)
    (b : BuildFile) (file : TypeResolvedFile) (env : Environment) (pe : PhaseEnvironment)
    (hm : HeadermapInfo) (sp : SearchPaths) (st : PassState)
    (h : (clang.sourceInvocation file b.compilerFlags
      (outputBaseName X pe.targetEnvironment b file) hm sp st.compilationInfo env
      pe.targetEnvironment.workingDirectory).2.precompiledHeaderInfo = none) :
    CreateCompilation X clang b file env pe hm sp st =
      { compilationInfo := (clang.sourceInvocation file b.compilerFlags
          (outputBaseName X pe.targetEnvironment b file) hm sp st.compilationInfo env
          pe.targetEnvironment.workingDirectory).2
        precompiledHeaders := st.precompiledHeaders
        invocations := st.invocations ++ [(clang.sourceInvocation file b.compilerFlags
          (outputBaseName X pe.targetEnvironment b file) hm sp st.compilationInfo env
          pe.targetEnvironment.workingDirectory).1]
        trace := st.trace ++ [Call.sourceInvocation file b.compilerFlags
          (outputBaseName X pe.targetEnvironment b file) hm sp st.compilationInfo env
          pe.targetEnvironment.workingDirectory
          (clang.sourceInvocation file b.compilerFlags
            (outputBaseName X pe.targetEnvironment b file) hm sp st.compilationInfo env
            pe.targetEnvironment.workingDirectory).1] } := by
  unfold CreateCompilation
  simp only [h]

end pbxbuild

namespace pbxbuild

/-- One pair of a phase whose only build file is compiled by the
compiler-family rule and leaves no precompiled-header descriptor: the pair
appends and records the single compile invocation. -/
theorem pairStep_single_compile (X : Collaborators) (pe : PhaseEnvironment)
    (phase : SourcesBuildPhase) (script : ScriptResolver) (clang : ClangResolver)
    (hmr : HeadermapResolver) (b : BuildFile) (file : TypeResolvedFile) (rule : BuildRule)
    (tool : Tool) (cs : CreateState) (p : String × String)
    (hfiles : phase.files = [b])
    (hres : resolvedFileOf pe b = some file)
    (hrule : pe.targetEnvironment.buildRules file = some rule)
    (htool : rule.tool = some tool)
    (hid : tool.identifier = "com.apple.compilers.gcc")
    (hpch : (clang.sourceInvocation file b.compilerFlags
      (outputBaseName X pe.targetEnvironment b file) (headermapInfoOf X pe hmr)
      (searchPathsOf X pe) cs.compilationInfo
      (currentEnvironment X pe.targetEnvironment p.1 p.2)
      pe.targetEnvironment.workingDirectory).2.precompiledHeaderInfo = none) :
    (pairStep X pe phase script clang hmr cs p).allInvocations =
        cs.allInvocations ++ [(clang.sourceInvocation file b.compilerFlags
          (outputBaseName X pe.targetEnvironment b file) (headermapInfoOf X pe hmr)
          (searchPathsOf X pe) cs.compilationInfo
          (currentEnvironment X pe.targetEnvironment p.1 p.2)
          pe.targetEnvironment.workingDirectory).1] ∧
      (pairStep X pe phase script clang hmr cs p).variantArchitectureInvocations =
        mapInsert cs.variantArchitectureInvocations (p.1, p.2)
          [(clang.sourceInvocation file b.compilerFlags
            (outputBaseName X pe.targetEnvironment b file) (headermapInfoOf X pe hmr)
            (searchPathsOf X pe) cs.compilationInfo
            (currentEnvironment X pe.targetEnvironment p.1 p.2)
            pe.targetEnvironment.workingDirectory).1] ∧
      (pairStep X pe phase script clang hmr cs p).compilationInfo =
        (clang.sourceInvocation file b.compilerFlags
          (outputBaseName X pe.targetEnvironment b file) (headermapInfoOf X pe hmr)
          (searchPathsOf X pe) cs.compilationInfo
          (currentEnvironment X pe.targetEnvironment p.1 p.2)
          pe.targetEnvironment.workingDirectory).2 := by
  have hfind : mapFind (prepass X pe phase clang hmr).files b = some file := by
    rw [prepass_find, hfiles, if_pos (List.mem_singleton_self b), hres]
  have hstep : processBuildFiles X script clang pe (headermapInfoOf X pe hmr)
      (searchPathsOf X pe) (prepass X pe phase clang hmr).files phase
      (currentEnvironment X pe.targetEnvironment p.1 p.2) (pairStart cs) =
      CreateCompilation X clang b file (currentEnvironment X pe.targetEnvironment p.1 p.2) pe
        (headermapInfoOf X pe hmr) (searchPathsOf X pe)
        { pairStart cs with trace := cs.trace ++ [Call.buildRulesResolve file] } := by
    unfold processBuildFiles
    rw [hfiles, List.foldl_cons, List.foldl_nil]
    exact processBuildFile_gcc X script clang pe _ _ _ _ _ b file rule tool hfind hrule htool hid
  have hcomp := CreateCompilation_no_pch X clang b file
    (currentEnvironment X pe.targetEnvironment p.1 p.2) pe (headermapInfoOf X pe hmr)
    (searchPathsOf X pe)
    { pairStart cs with trace := cs.trace ++ [Call.buildRulesResolve file] } hpch
  rw [hcomp] at hstep
  have hpair : pairStep X pe phase script clang hmr cs p =
      { allInvocations := cs.allInvocations ++ (processBuildFiles X script clang pe
          (headermapInfoOf X pe hmr) (searchPathsOf X pe) (prepass X pe phase clang hmr).files
          phase (currentEnvironment X pe.targetEnvironment p.1 p.2) (pairStart cs)).invocations
        variantArchitectureInvocations := mapInsert cs.variantArchitectureInvocations (p.1, p.2)
          (processBuildFiles X script clang pe
            (headermapInfoOf X pe hmr) (searchPathsOf X pe)
            (prepass X pe phase clang hmr).files
            phase (currentEnvironment X pe.targetEnvironment p.1 p.2)
            (pairStart cs)).invocations
        compilationInfo := (processBuildFiles X script clang pe
          (headermapInfoOf X pe hmr) (searchPathsOf X pe) (prepass X pe phase clang hmr).files
          phase (currentEnvironment X pe.targetEnvironment p.1 p.2)
          (pairStart cs)).compilationInfo
        precompiledHeaders := (processBuildFiles X script clang pe
          (headermapInfoOf X pe hmr) (searchPathsOf X pe) (prepass X pe phase clang hmr).files
          phase (currentEnvironment X pe.targetEnvironment p.1 p.2)
          (pairStart cs)).precompiledHeaders
        trace := (processBuildFiles X script clang pe
          (headermapInfoOf X pe hmr) (searchPathsOf X pe) (prepass X pe phase clang hmr).files
          phase (currentEnvironment X pe.targetEnvironment p.1 p.2) (pairStart cs)).trace } :=
    rfl
  rw [hpair, hstep]
  exact ⟨rfl, rfl, rfl⟩

/-- C8: the list a (variant, architecture) pair appends to the global list and
records in the mapping is the concatenation, over the build files of the phase
in declared order, of the invocations produced for each file, with one (maybe
empty) list per file; a build file that was not resolved, that no rule
matches, or whose rule has neither a tool nor a script produces none.  For a phase with one file matched by the
compiler-family rule and triggering no precompiled header, variants [normal]
and architectures [x86_64, arm64], the global list is the headermap invocation
and the two compile invocations, and each per-pair list is a singleton. -/
theorem C8_pair_list_in_file_order (X : Collaborators) :
    (∀ (script : ScriptResolver) (clang : ClangResolver) (pe : PhaseEnvironment)
        (hm : HeadermapInfo) (sp : SearchPaths) (files : List (BuildFile × TypeResolvedFile))
        (phase : SourcesBuildPhase) (variant : String) (cs : CreateState) (arch : String),
      (perFileLists X script clang pe hm sp files
        (currentEnvironment X pe.targetEnvironment variant arch) (pairStart cs)
        phase.files).length = phase.files.length ∧
      (processPair X script clang pe hm sp files phase variant cs arch).allInvocations =
        cs.allInvocations ++ (perFileLists X script clang pe hm sp files
          (currentEnvironment X pe.targetEnvironment variant arch) (pairStart cs)
          phase.files).flatten ∧
      (processPair X script clang pe hm sp files phase variant cs
        arch).variantArchitectureInvocations =
        mapInsert cs.variantArchitectureInvocations (variant, arch)
          (perFileLists X script clang pe hm sp files
            (currentEnvironment X pe.targetEnvironment variant arch) (pairStart cs)
            phase.files).flatten) ∧
    (∀ (script : ScriptResolver) (clang : ClangResolver) (pe : PhaseEnvironment)
        (hm : HeadermapInfo) (sp : SearchPaths) (files : List (BuildFile × TypeResolvedFile))
        (env : Environment) (st : PassState) (b : BuildFile),
      (mapFind files b = none →
        fileInvocations X script clang pe hm sp files env st b = []) ∧
      (∀ file, mapFind files b = some file → pe.targetEnvironment.buildRules file = none →
        fileInvocations X script clang pe hm sp files env st b = []) ∧
      (∀ file rule, mapFind files b = some file →
        pe.targetEnvironment.buildRules file = some rule → rule.tool = none →
        rule.script = "" →
        fileInvocations X script clang pe hm sp files env st b = [])) ∧
    (∀ (pe : PhaseEnvironment) (phase : SourcesBuildPhase) (script : ScriptResolver)
        (clang : ClangResolver) (hmr : HeadermapResolver) (b : BuildFile)
        (file : TypeResolvedFile) (rule : BuildRule) (tool : Tool),
      X.scriptResolverCreate pe = some script →
      X.clangResolverCreate pe = some clang →
      X.headermapResolverCreate pe clang.compiler = some hmr →
      phase.files = [b] →
      pe.targetEnvironment.variants = ["normal"] →
      pe.targetEnvironment.architectures = ["x86_64", "arm64"] →
      resolvedFileOf pe b = some file →
      pe.targetEnvironment.buildRules file = some rule →
      rule.tool = some tool →
      tool.identifier = "com.apple.compilers.gcc" →
      (clang.sourceInvocation file b.compilerFlags
        (outputBaseName X pe.targetEnvironment b file) (headermapInfoOf X pe hmr)
        (searchPathsOf X pe) CompilationInfo.empty
        (currentEnvironment X pe.targetEnvironment "normal" "x86_64")
        pe.targetEnvironment.workingDirectory).2.precompiledHeaderInfo = none →
      (clang.sourceInvocation file b.compilerFlags
        (outputBaseName X pe.targetEnvironment b file) (headermapInfoOf X pe hmr)
        (searchPathsOf X pe)
        (clang.sourceInvocation file b.compilerFlags
          (outputBaseName X pe.targetEnvironment b file) (headermapInfoOf X pe hmr)
          (searchPathsOf X pe) CompilationInfo.empty
          (currentEnvironment X pe.targetEnvironment "normal" "x86_64")
          pe.targetEnvironment.workingDirectory).2
        (currentEnvironment X pe.targetEnvironment "normal" "arm64")
        pe.targetEnvironment.workingDirectory).2.precompiledHeaderInfo = none →
      ∃ r, (SourcesResolver.Create X pe phase).resolver = some r ∧
        r.invocations =
          [headermapInvocationOf X pe hmr,
            (clang.sourceInvocation file b.compilerFlags
              (outputBaseName X pe.targetEnvironment b file) (headermapInfoOf X pe hmr)
              (searchPathsOf X pe) CompilationInfo.empty
              (currentEnvironment X pe.targetEnvironment "normal" "x86_64")
              pe.targetEnvironment.workingDirectory).1,
            (clang.sourceInvocation file b.compilerFlags
              (outputBaseName X pe.targetEnvironment b file) (headermapInfoOf X pe hmr)
              (searchPathsOf X pe)
              (clang.sourceInvocation file b.compilerFlags
                (outputBaseName X pe.targetEnvironment b file) (headermapInfoOf X pe hmr)
                (searchPathsOf X pe) CompilationInfo.empty
                (currentEnvironment X pe.targetEnvironment "normal" "x86_64")
                pe.targetEnvironment.workingDirectory).2
              (currentEnvironment X pe.targetEnvironment "normal" "arm64")
              pe.targetEnvironment.workingDirectory).1] ∧
        mapFind r.variantArchitectureInvocations ("normal", "x86_64") =
          some [(clang.sourceInvocation file b.compilerFlags
            (outputBaseName X pe.targetEnvironment b file) (headermapInfoOf X pe hmr)
            (searchPathsOf X pe) CompilationInfo.empty
            (currentEnvironment X pe.targetEnvironment "normal" "x86_64")
            pe.targetEnvironment.workingDirectory).1] ∧
        mapFind r.variantArchitectureInvocations ("normal", "arm64") =
          some [(clang.sourceInvocation file b.compilerFlags
            (outputBaseName X pe.targetEnvironment b file) (headermapInfoOf X pe hmr)
            (searchPathsOf X pe)
            (clang.sourceInvocation file b.compilerFlags
              (outputBaseName X pe.targetEnvironment b file) (headermapInfoOf X pe hmr)
              (searchPathsOf X pe) CompilationInfo.empty
              (currentEnvironment X pe.targetEnvironment "normal" "x86_64")
              pe.targetEnvironment.workingDirectory).2
            (currentEnvironment X pe.targetEnvironment "normal" "arm64")
            pe.targetEnvironment.workingDirectory).1]) := by
  refine ⟨?_, ?_, ?_⟩
  · intro script clang pe hm sp files phase variant cs arch
    have hinv := foldl_processBuildFile_invocations X script clang pe hm sp files
      (currentEnvironment X pe.targetEnvironment variant arch) phase.files (pairStart cs)
    have hinv2 : (processBuildFiles X script clang pe hm sp files phase
        (currentEnvironment X pe.targetEnvironment variant arch) (pairStart cs)).invocations =
        (perFileLists X script clang pe hm sp files
          (currentEnvironment X pe.targetEnvironment variant arch) (pairStart cs)
          phase.files).flatten := by
      unfold processBuildFiles
      rw [hinv]
      rfl
    refine ⟨perFileLists_length .., ?_, ?_⟩
    · exact congrArg (fun l => cs.allInvocations ++ l) hinv2
    · exact congrArg (fun l => mapInsert cs.variantArchitectureInvocations (variant, arch) l)
        hinv2
  · intro script clang pe hm sp files env st b
    refine ⟨?_, ?_, ?_⟩
    · intro hnone
      unfold fileInvocations processBuildFile
      simp [hnone]
    · intro file hfind hrule
      unfold fileInvocations
      rw [processBuildFile_no_rule X script clang pe hm sp files env _ b file hfind hrule]
    · intro file rule hfind hrule htool hscript
      unfold fileInvocations processBuildFile
      simp [hfind, hrule, htool, hscript]
  · intro pe phase script clang hmr b file rule tool h1 h2 h3 hfiles hv ha hres hrule htool hid
      hp1 hp2
    have hfinal : finalState X pe phase script clang hmr =
        pairStep X pe phase script clang hmr
          (pairStep X pe phase script clang hmr (initialState X pe phase clang hmr)
            ("normal", "x86_64")) ("normal", "arm64") := by
      unfold finalState
      rw [hv, ha]
      rfl
    obtain ⟨a1, a2, a3⟩ := pairStep_single_compile X pe phase script clang hmr b file rule tool
      (initialState X pe phase clang hmr) ("normal", "x86_64") hfiles hres hrule htool hid hp1
    have hp2a : (clang.sourceInvocation file b.compilerFlags
        (outputBaseName X pe.targetEnvironment b file) (headermapInfoOf X pe hmr)
        (searchPathsOf X pe)
        (pairStep X pe phase script clang hmr (initialState X pe phase clang hmr)
          ("normal", "x86_64")).compilationInfo
        (currentEnvironment X pe.targetEnvironment "normal" "arm64")
        pe.targetEnvironment.workingDirectory).2.precompiledHeaderInfo = none := by
      rw [a3]
      exact hp2
    obtain ⟨b1, b2, -⟩ := pairStep_single_compile X pe phase script clang hmr b file rule tool
      (pairStep X pe phase script clang hmr (initialState X pe phase clang hmr)
        ("normal", "x86_64")) ("normal", "arm64") hfiles hres hrule htool hid hp2a
    rw [a1, a3] at b1
    rw [a2, a3] at b2
    refine ⟨_, congrArg CreateResult.resolver
      (Create_eq_finalState X pe phase script clang hmr h1 h2 h3), ?_, ?_, ?_⟩
    · show (finalState X pe phase script clang hmr).allInvocations = _
      rw [hfinal, b1]
      rfl
    · show mapFind (finalState X pe phase script clang hmr).variantArchitectureInvocations _ = _
      rw [hfinal, b2]
      rfl
    · show mapFind (finalState X pe phase script clang hmr).variantArchitectureInvocations _ = _
      rw [hfinal, b2, mapFind_mapInsert_self _ _ _ (by rfl)]
      rfl

/-- The example pass over `a.m`, one variant and two architectures. -/
theorem C8_pair_list_in_file_order_witness :
    ∃ r, (Example.create ["normal"] ["x86_64", "arm64"] [Example.fileA]).resolver = some r ∧
      r.invocations = [Example.headermapInvocation, Example.compile "a.m" "a" "x86_64" [],
        Example.compile "a.m" "a" "arm64" []] ∧
      mapFind r.variantArchitectureInvocations ("normal", "x86_64") =
        some [Example.compile "a.m" "a" "x86_64" []] ∧
      mapFind r.variantArchitectureInvocations ("normal", "arm64") =
        some [Example.compile "a.m" "a" "arm64" []] :=
  (C8_pair_list_in_file_order Example.collaborators).2.2
    (Example.phaseEnvironment ["normal"] ["x86_64", "arm64"]) { files := [Example.fileA] }
    Example.script Example.clang Example.headermap Example.fileA (Example.resolved "a.m")
    { tool := some { identifier := "com.apple.compilers.gcc" }, script := "" }
    { identifier := "com.apple.compilers.gcc" } rfl rfl rfl rfl rfl rfl (by decide) (by decide)
    rfl rfl (by decide) (by decide)

end pbxbuild

namespace pbxbuild

/-- The text file of the example, which no rule matches, contributes nothing:
the loop body leaves the state as it is, and the pass over `a.m`, `README` and
`p.m` returns the resolver of the pass over `a.m` and `p.m`. -/
theorem C7_unmatched_file_contributes_nothing_witness :
    ((processBuildFile Example.collaborators Example.script Example.clang
        (Example.phaseEnvironment ["normal"] ["x86_64", "arm64"]) HeadermapInfo.empty
        (searchPathsOf Example.collaborators
          (Example.phaseEnvironment ["normal"] ["x86_64", "arm64"]))
        [(Example.fileT, Example.resolved "README")] Example.environment Example.emptyState
        Example.fileT).invocations = Example.emptyState.invocations ∧
      (processBuildFile Example.collaborators Example.script Example.clang
        (Example.phaseEnvironment ["normal"] ["x86_64", "arm64"]) HeadermapInfo.empty
        (searchPathsOf Example.collaborators
          (Example.phaseEnvironment ["normal"] ["x86_64", "arm64"]))
        [(Example.fileT, Example.resolved "README")] Example.environment Example.emptyState
        Example.fileT).compilationInfo = Example.emptyState.compilationInfo ∧
      (processBuildFile Example.collaborators Example.script Example.clang
        (Example.phaseEnvironment ["normal"] ["x86_64", "arm64"]) HeadermapInfo.empty
        (searchPathsOf Example.collaborators
          (Example.phaseEnvironment ["normal"] ["x86_64", "arm64"]))
        [(Example.fileT, Example.resolved "README")] Example.environment Example.emptyState
        Example.fileT).precompiledHeaders = Example.emptyState.precompiledHeaders) ∧
    (SourcesResolver.Create Example.collaborators
        (Example.phaseEnvironment ["normal"] ["x86_64", "arm64"])
        { files := [Example.fileA, Example.fileT, Example.fileP] }).resolver =
      (SourcesResolver.Create Example.collaborators
        (Example.phaseEnvironment ["normal"] ["x86_64", "arm64"])
        { files := [Example.fileA, Example.fileP] }).resolver :=
  ⟨(C7_unmatched_file_contributes_nothing Example.collaborators
      (Example.phaseEnvironment ["normal"] ["x86_64", "arm64"])
      { files := [Example.fileA, Example.fileT, Example.fileP] } Example.fileT
      (Example.resolved "README") (by decide) (by decide)).1 Example.script Example.clang
      HeadermapInfo.empty _ [(Example.fileT, Example.resolved "README")] Example.environment
      Example.emptyState (by decide),
    (C7_unmatched_file_contributes_nothing Example.collaborators
      (Example.phaseEnvironment ["normal"] ["x86_64", "arm64"])
      { files := [Example.fileA, Example.fileT, Example.fileP] } Example.fileT
      (Example.resolved "README") (by decide) (by decide)).2⟩

/-! ## Output base names and tool dispatch -/

/-- C9: the output base name passed to `ClangResolver::sourceInvocation` for a
build file is the name the disambiguation map of the target environment gives
for that build file when it has an entry, and otherwise the base name of the
file path without its extension; the compile invocation appended is the result
of that call.  So two build files that the map gives distinct names are
compiled with distinct output base names. -/
theorem C9_output_base_name (X : Collaborators) :
    (∀ (clang : ClangResolver) (b : BuildFile) (file : TypeResolvedFile) (env : Environment)
        (pe : PhaseEnvironment) (hm : HeadermapInfo) (sp : SearchPaths) (st : PassState),
      (CreateCompilation X clang b file env pe hm sp st).trace.filterMap
          Call.loggedOutputBaseName =
        st.trace.filterMap Call.loggedOutputBaseName ++
          [match pe.targetEnvironment.buildFileDisambiguation b with
            | some name => name
            | none => X.getBaseNameWithoutExtension file.filePath] ∧
      ∃ rest, (CreateCompilation X clang b file env pe hm sp st).invocations =
        st.invocations ++
          (clang.sourceInvocation file b.compilerFlags
            (match pe.targetEnvironment.buildFileDisambiguation b with
              | some name => name
              | none => X.getBaseNameWithoutExtension file.filePath)
            hm sp st.compilationInfo env pe.targetEnvironment.workingDirectory).1 :: rest) ∧
    (∀ (clang : ClangResolver) (b1 b2 : BuildFile) (file1 file2 : TypeResolvedFile)
        (env : Environment) (pe : PhaseEnvironment) (hm : HeadermapInfo) (sp : SearchPaths)
        (st1 st2 : PassState) (n1 n2 : String),
      pe.targetEnvironment.buildFileDisambiguation b1 = some n1 →
      pe.targetEnvironment.buildFileDisambiguation b2 = some n2 →
      n1 ≠ n2 →
      ∃ m1 m2, m1 ≠ m2 ∧
        (CreateCompilation X clang b1 file1 env pe hm sp st1).trace.filterMap
            Call.loggedOutputBaseName =
          st1.trace.filterMap Call.loggedOutputBaseName ++ [m1] ∧
        (CreateCompilation X clang b2 file2 env pe hm sp st2).trace.filterMap
            Call.loggedOutputBaseName =
          st2.trace.filterMap Call.loggedOutputBaseName ++ [m2]) := by
  have key : ∀ (clang : ClangResolver) (b : BuildFile) (file : TypeResolvedFile)
      (env : Environment) (pe : PhaseEnvironment) (hm : HeadermapInfo) (sp : SearchPaths)
      (st : PassState),
      (CreateCompilation X clang b file env pe hm sp st).trace.filterMap
          Call.loggedOutputBaseName =
        st.trace.filterMap Call.loggedOutputBaseName ++
          [match pe.targetEnvironment.buildFileDisambiguation b with
            | some name => name
            | none => X.getBaseNameWithoutExtension file.filePath] := by
    intro clang b file env pe hm sp st
    unfold CreateCompilation outputBaseName
    simp only
    split
    · simp [List.filterMap_append, Call.loggedOutputBaseName]
    · split <;> simp [List.filterMap_append, Call.loggedOutputBaseName]
  constructor
  · intro clang b file env pe hm sp st
    refine ⟨key clang b file env pe hm sp st, ?_⟩
    unfold CreateCompilation outputBaseName
    simp only
    split
    · exact ⟨[], rfl⟩
    · split
      · exact ⟨[], rfl⟩
      · exact ⟨[_], List.append_assoc _ _ _⟩
  · intro clang b1 b2 file1 file2 env pe hm sp st1 st2 n1 n2 h1 h2 hne
    refine ⟨n1, n2, hne, ?_, ?_⟩
    · rw [key, h1]
    · rw [key, h2]

/-- The two `util.m` files of the example are compiled with the distinct
output base names of the disambiguation map. -/
theorem C9_output_base_name_witness :
    ∃ m1 m2, m1 ≠ m2 ∧
      (CreateCompilation Example.collaborators Example.clang Example.utilLib
          (Example.resolved "lib/util.m") Example.environment
          (Example.phaseEnvironment ["normal"] ["x86_64"]) HeadermapInfo.empty
          (searchPathsOf Example.collaborators (Example.phaseEnvironment ["normal"] ["x86_64"]))
          Example.emptyState).trace.filterMap Call.loggedOutputBaseName =
        Example.emptyState.trace.filterMap Call.loggedOutputBaseName ++ [m1] ∧
      (CreateCompilation Example.collaborators Example.clang Example.utilApp
          (Example.resolved "app/util.m") Example.environment
          (Example.phaseEnvironment ["normal"] ["x86_64"]) HeadermapInfo.empty
          (searchPathsOf Example.collaborators (Example.phaseEnvironment ["normal"] ["x86_64"]))
          Example.emptyState).trace.filterMap Call.loggedOutputBaseName =
        Example.emptyState.trace.filterMap Call.loggedOutputBaseName ++ [m2] :=
  (C9_output_base_name Example.collaborators).2 Example.clang Example.utilLib Example.utilApp
    (Example.resolved "lib/util.m") (Example.resolved "app/util.m") Example.environment
    (Example.phaseEnvironment ["normal"] ["x86_64"]) HeadermapInfo.empty
    (searchPathsOf Example.collaborators (Example.phaseEnvironment ["normal"] ["x86_64"]))
    Example.emptyState Example.emptyState "util-lib" "util-app" rfl rfl (by decide)

/-- C10: for a resolved file whose matched build rule carries a tool, the loop
body hands the file to `CreateCompilation` when the identifier of the tool is
"com.apple.compilers.gcc"; for any other identifier it appends exactly one
invocation, the one `ToolInvocationContext::Create` builds from the tool, an
empty first list and the single input [file path] in the environment and
working directory of the pair, makes no other call, and leaves the shared
`CompilationInfo` and the precompiled-header hash set as they are. -/
theorem C10_tool_dispatch (X : Collaborators) (script : ScriptResolver)
    (clang : ClangResolver) (pe : PhaseEnvironment) (hm : HeadermapInfo) (sp : SearchPaths)
    (files : List (BuildFile × TypeResolvedFile)) (env : Environment) (st : PassState)
    (b : BuildFile) (file : TypeResolvedFile) (rule : BuildRule) (tool : Tool)
    (hfind : mapFind files b = some file)
    (hrule : pe.targetEnvironment.buildRules file = some rule)
    (htool : rule.tool = some tool) :
    (tool.identifier = "com.apple.compilers.gcc" →
      processBuildFile X script clang pe hm sp files env st b =
        CreateCompilation X clang b file env pe hm sp
          { st with trace := st.trace ++ [Call.buildRulesResolve file] }) ∧
    (tool.identifier ≠ "com.apple.compilers.gcc" →
      (processBuildFile X script clang pe hm sp files env st b).invocations =
        st.invocations ++ [X.toolInvocationContextCreate tool [] [file.filePath] env
          pe.targetEnvironment.workingDirectory] ∧
      (processBuildFile X script clang pe hm sp files env st b).compilationInfo =
        st.compilationInfo ∧
      (processBuildFile X script clang pe hm sp files env st b).precompiledHeaders =
        st.precompiledHeaders ∧
      (processBuildFile X script clang pe hm sp files env st b).trace =
        st.trace ++ [Call.buildRulesResolve file,
          Call.toolInvocationContextCreate tool [] [file.filePath] env
            pe.targetEnvironment.workingDirectory
            (X.toolInvocationContextCreate tool [] [file.filePath] env
              pe.targetEnvironment.workingDirectory)]) := by
  constructor
  · intro hid
    exact processBuildFile_gcc X script clang pe hm sp files env st b file rule tool hfind hrule
      htool hid
  · intro hid
    unfold processBuildFile
    simp [hfind, hrule, htool, hid]

/-- The yacc source of the example goes to the generic tool, and `a.m` to the
compilation strategy. -/
theorem C10_tool_dispatch_witness :
    (processBuildFile Example.collaborators Example.script Example.clang
        (Example.phaseEnvironment ["normal"] ["x86_64"]) HeadermapInfo.empty
        (searchPathsOf Example.collaborators (Example.phaseEnvironment ["normal"] ["x86_64"]))
        [(Example.fileY, Example.resolved "parse.y")] Example.environment Example.emptyState
        Example.fileY).invocations =
      Example.emptyState.invocations ++
        [Example.collaborators.toolInvocationContextCreate
          { identifier := "com.apple.compilers.yacc" } [] ["parse.y"] Example.environment
          "/src"] ∧
    processBuildFile Example.collaborators Example.script Example.clang
        (Example.phaseEnvironment ["normal"] ["x86_64"]) HeadermapInfo.empty
        (searchPathsOf Example.collaborators (Example.phaseEnvironment ["normal"] ["x86_64"]))
        [(Example.fileA, Example.resolved "a.m")] Example.environment Example.emptyState
        Example.fileA =
      CreateCompilation Example.collaborators Example.clang Example.fileA
        (Example.resolved "a.m") Example.environment
        (Example.phaseEnvironment ["normal"] ["x86_64"]) HeadermapInfo.empty
        (searchPathsOf Example.collaborators (Example.phaseEnvironment ["normal"] ["x86_64"]))
        { Example.emptyState with
          trace := Example.emptyState.trace ++ [Call.buildRulesResolve (Example.resolved "a.m")] } :=
  ⟨((C10_tool_dispatch Example.collaborators Example.script Example.clang
      (Example.phaseEnvironment ["normal"] ["x86_64"]) HeadermapInfo.empty
      (searchPathsOf Example.collaborators (Example.phaseEnvironment ["normal"] ["x86_64"]))
      [(Example.fileY, Example.resolved "parse.y")] Example.environment Example.emptyState
      Example.fileY (Example.resolved "parse.y")
      { tool := some { identifier := "com.apple.compilers.yacc" }, script := "" }
      { identifier := "com.apple.compilers.yacc" } (by decide) (by decide) rfl).2
      (by decide)).1,
    (C10_tool_dispatch Example.collaborators Example.script Example.clang
      (Example.phaseEnvironment ["normal"] ["x86_64"]) HeadermapInfo.empty
      (searchPathsOf Example.collaborators (Example.phaseEnvironment ["normal"] ["x86_64"]))
      [(Example.fileA, Example.resolved "a.m")] Example.environment Example.emptyState
      Example.fileA (Example.resolved "a.m")
      { tool := some { identifier := "com.apple.compilers.gcc" }, script := "" }
      { identifier := "com.apple.compilers.gcc" } (by decide) (by decide) rfl).1 rfl⟩

end pbxbuild

namespace pbxbuild

/-! ## The environment of a pair -/

theorem segmentOf_refl (P : Call → Prop) (t : List Call) : SegmentOf P t t :=
  ⟨[], by simp, by simp⟩

theorem segmentOf_trans {P : Call → Prop} {t u v : List Call} (h1 : SegmentOf P t u)
    (h2 : SegmentOf P u v) : SegmentOf P t v := by
  obtain ⟨s1, e1, p1⟩ := h1
  obtain ⟨s2, e2, p2⟩ := h2
  refine ⟨s1 ++ s2, by rw [e2, e1, List.append_assoc], ?_⟩
  intro c hc
  rcases List.mem_append.1 hc with h | h
  · exact p1 c h
  · exact p2 c h

theorem segmentOf_snoc {P : Call → Prop} (t : List Call) (c : Call) (h : P c) :
    SegmentOf P t (t ++ [c]) :=
  ⟨[c], rfl, by simpa using h⟩

theorem CreateCompilation_usesEnvironment (X : Collaborators) (clang : ClangResolver)
    (b : BuildFile) (file : TypeResolvedFile) (env : Environment) (pe : PhaseEnvironment)
    (hm : HeadermapInfo) (sp : SearchPaths) (st : PassState) :
    SegmentOf (Call.UsesEnvironment env) st.trace
      (CreateCompilation X clang b file env pe hm sp st).trace := by
  have hsrc : ∀ (name : String) (r : ToolInvocation), Call.UsesEnvironment env
      (Call.sourceInvocation file b.compilerFlags name hm sp st.compilationInfo env
        pe.targetEnvironment.workingDirectory r) :=
    fun _ _ => ⟨rfl, fun e he => (Option.some.inj he).symm⟩
  have hpch : ∀ (info : PrecompiledHeaderInfo) (r : ToolInvocation), Call.UsesEnvironment env
      (Call.precompiledHeaderInvocation info env pe.targetEnvironment.workingDirectory r) :=
    fun _ _ => ⟨rfl, fun e he => (Option.some.inj he).symm⟩
  unfold CreateCompilation
  simp only
  split
  · exact segmentOf_snoc _ _ (hsrc _ _)
  · split
    · exact segmentOf_snoc _ _ (hsrc _ _)
    · exact segmentOf_trans (segmentOf_snoc _ _ (hsrc _ _)) (segmentOf_snoc _ _ (hpch _ _))

theorem processBuildFile_usesEnvironment (X : Collaborators) (script : ScriptResolver)
    (clang : ClangResolver) (pe : PhaseEnvironment) (hm : HeadermapInfo) (sp : SearchPaths)
    (files : List (BuildFile × TypeResolvedFile)) (env : Environment) (st : PassState)
    (b : BuildFile) :
    SegmentOf (Call.UsesEnvironment env) st.trace
      (processBuildFile X script clang pe hm sp files env st b).trace := by
  have h0 : ∀ file : TypeResolvedFile, SegmentOf (Call.UsesEnvironment env) st.trace
      (st.trace ++ [Call.buildRulesResolve file]) :=
    fun file => segmentOf_snoc _ _ ⟨rfl, fun e he => by simp [Call.strategyEnvironment] at he⟩
  unfold processBuildFile
  simp only
  split
  · exact segmentOf_refl _ _
  · split
    · split
      · split
        · exact segmentOf_trans (h0 _) (CreateCompilation_usesEnvironment X clang b _ env pe
            hm sp _)
        · exact segmentOf_trans (h0 _)
            (segmentOf_snoc _ _ ⟨rfl, fun e he => (Option.some.inj he).symm⟩)
      · split
        · exact segmentOf_trans (h0 _)
            (segmentOf_snoc _ _ ⟨rfl, fun e he => (Option.some.inj he).symm⟩)
        · exact h0 _
    · exact segmentOf_trans (h0 _)
        (segmentOf_snoc _ _ ⟨rfl, fun e he => by simp [Call.strategyEnvironment] at he⟩)

theorem processPair_usesEnvironment (X : Collaborators) (script : ScriptResolver)
    (clang : ClangResolver) (pe : PhaseEnvironment) (hm : HeadermapInfo) (sp : SearchPaths)
    (files : List (BuildFile × TypeResolvedFile)) (phase : SourcesBuildPhase)
    (variant : String) (cs : CreateState) (arch : String) :
    SegmentOf (Call.UsesEnvironment (currentEnvironment X pe.targetEnvironment variant arch))
      cs.trace (processPair X script clang pe hm sp files phase variant cs arch).trace := by
  have key : ∀ (l : List BuildFile) (st : PassState),
      SegmentOf (Call.UsesEnvironment (currentEnvironment X pe.targetEnvironment variant arch))
        st.trace
        (l.foldl (processBuildFile X script clang pe hm sp files
          (currentEnvironment X pe.targetEnvironment variant arch)) st).trace := by
    intro l
    induction l with
    | nil => intro st; exact segmentOf_refl _ _
    | cons b rest ih =>
      intro st
      rw [List.foldl_cons]
      exact segmentOf_trans (processBuildFile_usesEnvironment ..) (ih _)
  exact key phase.files (pairStart cs)

theorem setupEnvironment_of_isLoopCall (c : Call) (h : c.isLoopCall = true) :
    c.setupEnvironment = none := by
  cases c <;> simp_all [Call.isLoopCall, Call.setupEnvironment]

/-- A property of the loop state that holds when the loop is entered and is
kept by every pair of the iteration holds when the loop is left. -/
theorem finalState_induction_mem (X : Collaborators) (pe : PhaseEnvironment)
    (phase : SourcesBuildPhase) (script : ScriptResolver) (clang : ClangResolver)
    (hmr : HeadermapResolver) (P : CreateState → Prop)
    (hinit : P (initialState X pe phase clang hmr))
    (hstep : ∀ cs p,
      p ∈ pairsOf pe.targetEnvironment.variants pe.targetEnvironment.architectures →
      P cs → P (pairStep X pe phase script clang hmr cs p)) :
    P (finalState X pe phase script clang hmr) := by
  unfold finalState
  generalize pairsOf pe.targetEnvironment.variants pe.targetEnvironment.architectures = ps
    at hstep
  generalize initialState X pe phase clang hmr = cs at hinit
  induction ps generalizing cs with
  | nil => exact hinit
  | cons p rest ih =>
    exact ih (fun cs q hq => hstep cs q (List.mem_cons_of_mem _ hq)) _
      (hstep cs p (List.mem_cons_self _ _) hinit)

theorem mem_pairsOf (variants architectures : List String) (p : String × String) :
    p ∈ pairsOf variants architectures ↔ p.1 ∈ variants ∧ p.2 ∈ architectures := by
  obtain ⟨v, a⟩ := p
  simp [pairsOf, List.mem_flatMap]

end pbxbuild

namespace pbxbuild

/-- The calls logged before the pair loops are handed the target environment
and are no strategy calls. -/
theorem prepass_environments (X : Collaborators) (pe : PhaseEnvironment)
    (phase : SourcesBuildPhase) (clang : ClangResolver) (hmr : HeadermapResolver) :
    ∀ c ∈ (prepass X pe phase clang hmr).trace,
      c.strategyEnvironment = none ∧
        ∀ e, c.setupEnvironment = some e → e = pe.targetEnvironment.environment := by
  rw [prepass_trace]
  intro c hc
  rcases List.mem_append.1 hc with h | h
  · simp only [setupTrace, List.mem_cons, List.mem_singleton, List.not_mem_nil,
      or_false] at h
    rcases h with rfl | rfl | rfl | rfl | rfl <;>
      simp [Call.strategyEnvironment, Call.setupEnvironment]
  · obtain ⟨b, -, hb⟩ := List.mem_filterMap.1 h
    unfold resolveCall at hb
    cases hf : fileReferenceOf b with
    | none => simp [hf] at hb
    | some ref =>
      simp only [hf, Option.map_some', Option.some.injEq] at hb
      subst hb
      simp [Call.strategyEnvironment, Call.setupEnvironment]

/-- C11: the calls a (variant, architecture) pair adds to the trace are calls
of the build-file loop, and every strategy call among them is handed the target
environment with the variant level inserted in front and then the architecture
level inserted in front of that, so its levels are the architecture level, the
variant level and then the levels of the target environment, whatever the
earlier pairs did.  In the whole trace of `Create`, every strategy call is
handed the layered environment of a pair of the iteration, and the search
paths, the headermap invocation and the file resolution are handed the target
environment itself. -/
theorem C11_layered_environment (X : Collaborators) (pe : PhaseEnvironment) :
    (∀ (script : ScriptResolver) (clang : ClangResolver) (hm : HeadermapInfo)
        (sp : SearchPaths) (files : List (BuildFile × TypeResolvedFile))
        (phase : SourcesBuildPhase) (variant : String) (cs : CreateState) (arch : String),
      ∃ seg : List Call,
        (processPair X script clang pe hm sp files phase variant cs arch).trace =
          cs.trace ++ seg ∧
        ∀ c ∈ seg, c.setupEnvironment = none ∧
          ∀ e, c.strategyEnvironment = some e →
            e = (pe.targetEnvironment.environment.insertFront (X.variantLevel variant)
              false).insertFront (X.architectureLevel arch) false ∧
            e.levels = X.architectureLevel arch :: X.variantLevel variant ::
              pe.targetEnvironment.environment.levels ∧
            e.defaultLevels = pe.targetEnvironment.environment.defaultLevels) ∧
    (∀ (phase : SourcesBuildPhase), ∀ c ∈ (SourcesResolver.Create X pe phase).trace,
      (∀ e, c.strategyEnvironment = some e →
        ∃ variant ∈ pe.targetEnvironment.variants,
          ∃ arch ∈ pe.targetEnvironment.architectures,
            e = (pe.targetEnvironment.environment.insertFront (X.variantLevel variant)
              false).insertFront (X.architectureLevel arch) false) ∧
      (∀ e, c.setupEnvironment = some e → e = pe.targetEnvironment.environment)) := by
  constructor
  · intro script clang hm sp files phase variant cs arch
    obtain ⟨seg, hseg, hall⟩ := processPair_usesEnvironment X script clang pe hm sp files phase
      variant cs arch
    refine ⟨seg, hseg, ?_⟩
    intro c hc
    obtain ⟨hloop, henv⟩ := hall c hc
    refine ⟨setupEnvironment_of_isLoopCall c hloop, ?_⟩
    intro e he
    have h := henv e he
    subst h
    exact ⟨rfl, rfl, rfl⟩
  · intro phase
    cases h1 : X.scriptResolverCreate pe with
    | none =>
      simp [SourcesResolver.Create, h1, Call.strategyEnvironment, Call.setupEnvironment]
    | some script =>
      cases h2 : X.clangResolverCreate pe with
      | none =>
        simp [SourcesResolver.Create, h1, h2, Call.strategyEnvironment, Call.setupEnvironment]
      | some clang =>
        cases h3 : X.headermapResolverCreate pe clang.compiler with
        | none =>
          simp [SourcesResolver.Create, h1, h2, h3, Call.strategyEnvironment,
            Call.setupEnvironment]
        | some hmr =>
          rw [Create_eq_finalState X pe phase script clang hmr h1 h2 h3]
          show ∀ c ∈ (finalState X pe phase script clang hmr).trace, _
          refine finalState_induction_mem X pe phase script clang hmr
            (fun cs => ∀ c ∈ cs.trace,
              (∀ e, c.strategyEnvironment = some e →
                ∃ variant ∈ pe.targetEnvironment.variants,
                  ∃ arch ∈ pe.targetEnvironment.architectures,
                    e = (pe.targetEnvironment.environment.insertFront (X.variantLevel variant)
                      false).insertFront (X.architectureLevel arch) false) ∧
              (∀ e, c.setupEnvironment = some e → e = pe.targetEnvironment.environment))
            ?_ ?_
          · intro c hc
            obtain ⟨hs, hp⟩ := prepass_environments X pe phase clang hmr c hc
            exact ⟨fun e he => by rw [hs] at he; exact absurd he (by simp), hp⟩
          · intro cs p hp ih c hc
            obtain ⟨seg, hseg, hall⟩ := processPair_usesEnvironment X script clang pe
              (headermapInfoOf X pe hmr) (searchPathsOf X pe)
              (prepass X pe phase clang hmr).files phase p.1 cs p.2
            have hc2 : c ∈ cs.trace ++ seg := by
              rw [← hseg]
              exact hc
            rcases List.mem_append.1 hc2 with h | h
            · exact ih c h
            · obtain ⟨hloop, henv⟩ := hall c h
              have hmem := (mem_pairsOf _ _ p).1 hp
              refine ⟨fun e he => ⟨p.1, hmem.1, p.2, hmem.2, henv e he⟩, ?_⟩
              intro e he
              rw [setupEnvironment_of_isLoopCall c hloop] at he
              exact absurd he (by simp)

end pbxbuild

namespace pbxbuild

/-! ## The linker configuration -/

theorem replayInfo_append (clang : ClangResolver) (t s : List Call) (ci : CompilationInfo) :
    replayInfo clang ci (t ++ s) =
      (replayInfo clang ci t).bind (fun c => replayInfo clang c s) := by
  induction t generalizing ci with
  | nil => simp [replayInfo]
  | cons c rest ih =>
    cases c with
    | sourceInvocation file flags name hm sp logged env wd r =>
      rw [List.cons_append]
      simp only [replayInfo]
      split
      · exact ih _
      · rfl
    | _ =>
      rw [List.cons_append]
      simp only [replayInfo]
      exact ih _

theorem replayInfo_of_no_source (clang : ClangResolver) (t : List Call) (ci : CompilationInfo)
    (h : ∀ c ∈ t, c.isSourceCall = false) : replayInfo clang ci t = some ci := by
  induction t with
  | nil => rfl
  | cons c rest ih =>
    have hc := h c (List.mem_cons_self _ _)
    have hrest := ih (fun d hd => h d (List.mem_cons_of_mem _ hd))
    cases c <;> simp_all [replayInfo, Call.isSourceCall]

theorem replayInfo_snoc_other (clang : ClangResolver) (t : List Call) (c : Call)
    (ci0 ci : CompilationInfo) (h : replayInfo clang ci0 t = some ci)
    (hc : c.isSourceCall = false) : replayInfo clang ci0 (t ++ [c]) = some ci := by
  rw [replayInfo_append, h]
  exact replayInfo_of_no_source clang [c] ci (by simpa using hc)

theorem CreateCompilation_replayInfo (X : Collaborators) (clang : ClangResolver)
    (b : BuildFile) (file : TypeResolvedFile) (env : Environment) (pe : PhaseEnvironment)
    (hm : HeadermapInfo) (sp : SearchPaths) (st : PassState) (ci0 : CompilationInfo)
    (h : replayInfo clang ci0 st.trace = some st.compilationInfo) :
    replayInfo clang ci0 (CreateCompilation X clang b file env pe hm sp st).trace =
      some (CreateCompilation X clang b file env pe hm sp st).compilationInfo := by
  have hsrc : ∀ (name : String),
      replayInfo clang ci0 (st.trace ++ [Call.sourceInvocation file b.compilerFlags name hm sp
        st.compilationInfo env pe.targetEnvironment.workingDirectory
        (clang.sourceInvocation file b.compilerFlags name hm sp st.compilationInfo env
          pe.targetEnvironment.workingDirectory).1]) =
      some (clang.sourceInvocation file b.compilerFlags name hm sp st.compilationInfo env
        pe.targetEnvironment.workingDirectory).2 := by
    intro name
    rw [replayInfo_append, h]
    simp [replayInfo]
  unfold CreateCompilation
  simp only
  split
  · exact hsrc _
  · split
    · exact hsrc _
    · exact replayInfo_snoc_other clang _ _ ci0 _ (hsrc _) rfl

theorem processBuildFile_replayInfo (X : Collaborators) (script : ScriptResolver)
    (clang : ClangResolver) (pe : PhaseEnvironment) (hm : HeadermapInfo) (sp : SearchPaths)
    (files : List (BuildFile × TypeResolvedFile)) (env : Environment) (st : PassState)
    (b : BuildFile) (ci0 : CompilationInfo)
    (h : replayInfo clang ci0 st.trace = some st.compilationInfo) :
    replayInfo clang ci0 (processBuildFile X script clang pe hm sp files env st b).trace =
      some (processBuildFile X script clang pe hm sp files env st b).compilationInfo := by
  have h0 := fun file => replayInfo_snoc_other clang st.trace (Call.buildRulesResolve file) ci0
    st.compilationInfo h rfl
  unfold processBuildFile
  simp only
  split
  · exact h
  · split
    · split
      · split
        · exact CreateCompilation_replayInfo X clang b _ env pe hm sp _ ci0 (h0 _)
        · exact replayInfo_snoc_other clang _ _ ci0 _ (h0 _) rfl
      · split
        · exact replayInfo_snoc_other clang _ _ ci0 _ (h0 _) rfl
        · exact h0 _
    · exact replayInfo_snoc_other clang _ _ ci0 _ (h0 _) rfl

theorem isSourceCall_of_prepass (X : Collaborators) (pe : PhaseEnvironment)
    (phase : SourcesBuildPhase) (clang : ClangResolver) (hmr : HeadermapResolver) :
    ∀ c ∈ (prepass X pe phase clang hmr).trace, c.isSourceCall = false := by
  rw [prepass_trace]
  intro c hc
  rcases List.mem_append.1 hc with h | h
  · simp only [setupTrace, List.mem_cons, List.mem_singleton, List.not_mem_nil,
      or_false] at h
    rcases h with rfl | rfl | rfl | rfl | rfl <;> rfl
  · obtain ⟨b, -, hb⟩ := List.mem_filterMap.1 h
    unfold resolveCall at hb
    cases hf : fileReferenceOf b with
    | none => simp [hf] at hb
    | some ref =>
      simp only [hf, Option.map_some', Option.some.injEq] at hb
      subst hb
      rfl

/-- The shared `CompilationInfo` at the end of the pair loops is the value
obtained by replaying the logged compilations from the empty value. -/
theorem finalState_replayInfo (X : Collaborators) (pe : PhaseEnvironment)
    (phase : SourcesBuildPhase) (script : ScriptResolver) (clang : ClangResolver)
    (hmr : HeadermapResolver) :
    replayInfo clang CompilationInfo.empty (finalState X pe phase script clang hmr).trace =
      some (finalState X pe phase script clang hmr).compilationInfo := by
  refine finalState_induction X pe phase script clang hmr
    (fun cs => replayInfo clang CompilationInfo.empty cs.trace = some cs.compilationInfo) ?_ ?_
  · exact replayInfo_of_no_source clang _ _ (isSourceCall_of_prepass X pe phase clang hmr)
  · intro cs p h
    exact processBuildFiles_induction X script clang pe _ _ _ phase _
      (fun st => replayInfo clang CompilationInfo.empty st.trace = some st.compilationInfo)
      (fun st b hst => processBuildFile_replayInfo X script clang pe _ _ _ _ st b _ hst) _ h

theorem foldl_induction_mem {σ β : Type} (P : σ → Prop) (f : σ → β → σ) (l : List β)
    (hstep : ∀ s b, b ∈ l → P s → P (f s b)) (s : σ) (h : P s) : P (l.foldl f s) := by
  induction l generalizing s with
  | nil => exact h
  | cons b rest ih =>
    exact ih (fun s c hc => hstep s c (List.mem_cons_of_mem _ hc)) _
      (hstep s b (List.mem_cons_self _ _) h)

/-- A build file that the compiler-family rule does not match adds no
`sourceInvocation` call. -/
theorem processBuildFile_no_source (X : Collaborators) (script : ScriptResolver)
    (clang : ClangResolver) (pe : PhaseEnvironment) (hm : HeadermapInfo) (sp : SearchPaths)
    (files : List (BuildFile × TypeResolvedFile)) (env : Environment) (st : PassState)
    (b : BuildFile)
    (hng : ∀ file rule tool, mapFind files b = some file →
      pe.targetEnvironment.buildRules file = some rule → rule.tool = some tool →
      tool.identifier ≠ "com.apple.compilers.gcc")
    (h : ∀ c ∈ st.trace, c.isSourceCall = false) :
    ∀ c ∈ (processBuildFile X script clang pe hm sp files env st b).trace,
      c.isSourceCall = false := by
  unfold processBuildFile
  simp only
  split
  · exact h
  · rename_i file hfind
    split
    · rename_i rule hrule
      split
      · rename_i tool htool
        split
        · rename_i hid
          exact absurd hid (hng file rule tool hfind hrule htool)
        · intro c hc
          simp only [List.mem_append, List.mem_singleton] at hc
          rcases hc with (hc | rfl) | rfl
          · exact h c hc
          · rfl
          · rfl
      · split
        · intro c hc
          simp only [List.mem_append, List.mem_singleton] at hc
          rcases hc with (hc | rfl) | rfl
          · exact h c hc
          · rfl
          · rfl
        · intro c hc
          simp only [List.mem_append, List.mem_singleton] at hc
          rcases hc with hc | rfl
          · exact h c hc
          · rfl
    · intro c hc
      simp only [List.mem_append, List.mem_singleton] at hc
      rcases hc with (hc | rfl) | rfl
      · exact h c hc
      · rfl
      · rfl

theorem finalState_no_source (X : Collaborators) (pe : PhaseEnvironment)
    (phase : SourcesBuildPhase) (script : ScriptResolver) (clang : ClangResolver)
    (hmr : HeadermapResolver)
    (hng : ∀ b ∈ phase.files, ∀ file rule tool, resolvedFileOf pe b = some file →
      pe.targetEnvironment.buildRules file = some rule → rule.tool = some tool →
      tool.identifier ≠ "com.apple.compilers.gcc") :
    ∀ c ∈ (finalState X pe phase script clang hmr).trace, c.isSourceCall = false := by
  refine finalState_induction X pe phase script clang hmr
    (fun cs => ∀ c ∈ cs.trace, c.isSourceCall = false) ?_ ?_
  · exact isSourceCall_of_prepass X pe phase clang hmr
  · intro cs p h
    exact foldl_induction_mem (fun st : PassState => ∀ c ∈ st.trace, c.isSourceCall = false)
      _ phase.files
      (fun st b hb hst => processBuildFile_no_source X script clang pe _ _ _ _ st b
        (fun file rule tool hfind => by
          rw [prepass_find, if_pos hb] at hfind
          exact hng b hb file rule tool hfind) hst)
      (pairStart cs) h

end pbxbuild

namespace pbxbuild

/-- C12: the linker driver and the linker arguments of a returned resolver are
those of the `CompilationInfo` obtained by replaying the logged
`sourceInvocation` calls in program order from the empty value, each call being
handed the value the calls before it left; no other call changes it.  So a
phase no file of which is matched by the compiler-family rule yields the driver
and the arguments of the empty `CompilationInfo`, and otherwise the resolver
reports the driver and the arguments left by the last compilation. -/
theorem C12_linker_configuration (X : Collaborators) (pe : PhaseEnvironment)
    (phase : SourcesBuildPhase) (r : SourcesResolver) (clang : ClangResolver)
    (h : (SourcesResolver.Create X pe phase).resolver = some r)
    (hc : X.clangResolverCreate pe = some clang) :
    (∃ ci, replayInfo clang CompilationInfo.empty (SourcesResolver.Create X pe phase).trace =
        some ci ∧
      r.linkerDriver = ci.linkerDriver ∧ r.linkerArgs = ci.linkerArguments) ∧
    ((∀ b ∈ phase.files, ∀ file rule tool, resolvedFileOf pe b = some file →
        pe.targetEnvironment.buildRules file = some rule → rule.tool = some tool →
        tool.identifier ≠ "com.apple.compilers.gcc") →
      (∀ c ∈ (SourcesResolver.Create X pe phase).trace, c.isSourceCall = false) ∧
      r.linkerDriver = CompilationInfo.empty.linkerDriver ∧
      r.linkerArgs = CompilationInfo.empty.linkerArguments) ∧
    (∀ (pre post : List Call) (file : TypeResolvedFile) (flags : List String) (name : String)
        (hm : HeadermapInfo) (sp : SearchPaths) (ci : CompilationInfo) (env : Environment)
        (wd : String) (inv : ToolInvocation),
      (SourcesResolver.Create X pe phase).trace =
        pre ++ Call.sourceInvocation file flags name hm sp ci env wd inv :: post →
      (∀ c ∈ post, c.isSourceCall = false) →
      r.linkerDriver =
        (clang.sourceInvocation file flags name hm sp ci env wd).2.linkerDriver ∧
      r.linkerArgs =
        (clang.sourceInvocation file flags name hm sp ci env wd).2.linkerArguments) := by
  obtain ⟨script, clang1, hmr, h1, h2, h3⟩ := Create_resolver_some X pe phase r h
  have hcc : clang1 = clang := Option.some.inj (h2.symm.trans hc)
  subst hcc
  have hcreate := Create_eq_finalState X pe phase script clang1 hmr h1 h2 h3
  have hreplay := finalState_replayInfo X pe phase script clang1 hmr
  have htrace : (SourcesResolver.Create X pe phase).trace =
      (finalState X pe phase script clang1 hmr).trace := by rw [hcreate]
  have hr : r = { invocations := (finalState X pe phase script clang1 hmr).allInvocations
                  variantArchitectureInvocations :=
                    (finalState X pe phase script clang1 hmr).variantArchitectureInvocations
                  linkerDriver :=
                    (finalState X pe phase script clang1 hmr).compilationInfo.linkerDriver
                  linkerArgs :=
                    (finalState X pe phase script clang1 hmr).compilationInfo.linkerArguments } := by
    rw [hcreate] at h
    exact (Option.some.inj h).symm
  rw [htrace]
  refine ⟨⟨_, hreplay, by rw [hr], by rw [hr]⟩, ?_, ?_⟩
  · intro hng
    have hns := finalState_no_source X pe phase script clang1 hmr hng
    have he := replayInfo_of_no_source clang1 _ CompilationInfo.empty hns
    rw [hreplay] at he
    have he2 := Option.some.inj he
    refine ⟨hns, ?_, ?_⟩
    · rw [hr]
      exact congrArg CompilationInfo.linkerDriver he2
    · rw [hr]
      exact congrArg CompilationInfo.linkerArguments he2
  · intro pre post file flags name hm sp ci env wd inv hsplit hpost
    rw [hsplit, replayInfo_append] at hreplay
    cases hpre : replayInfo clang1 CompilationInfo.empty pre with
    | none => simp [hpre] at hreplay
    | some ci1 =>
      rw [hpre] at hreplay
      simp only [Option.some_bind, replayInfo] at hreplay
      by_cases hci : ci = ci1
      · subst hci
        rw [if_pos rfl, replayInfo_of_no_source clang1 post _ hpost] at hreplay
        have he2 := Option.some.inj hreplay
        constructor
        · rw [hr]
          exact (congrArg CompilationInfo.linkerDriver he2).symm
        · rw [hr]
          exact (congrArg CompilationInfo.linkerArguments he2).symm
      · rw [if_neg hci] at hreplay
        exact absurd hreplay (by simp)

/-- In the pass of the second example compiler over `c.mm` and `a.m`, the
resolver reports the driver and the arguments left by the compilation of `a.m`,
the last one. -/
theorem C12_linker_configuration_witness :
    ∃ r, (SourcesResolver.Create Example.driverCollaborators
        (Example.phaseEnvironment ["normal"] ["x86_64"])
        { files := [Example.fileCxx, Example.fileA] }).resolver = some r ∧
      (∃ ci, replayInfo Example.driverClang CompilationInfo.empty
          (SourcesResolver.Create Example.driverCollaborators
            (Example.phaseEnvironment ["normal"] ["x86_64"])
            { files := [Example.fileCxx, Example.fileA] }).trace = some ci ∧
        r.linkerDriver = ci.linkerDriver ∧ r.linkerArgs = ci.linkerArguments) ∧
      r.linkerDriver = "clang" ∧ r.linkerArgs = ["-lc++"] :=
  ⟨_, rfl,
    (C12_linker_configuration Example.driverCollaborators
      (Example.phaseEnvironment ["normal"] ["x86_64"])
      { files := [Example.fileCxx, Example.fileA] } _ Example.driverClang rfl rfl).1,
    (C12_linker_configuration Example.driverCollaborators
      (Example.phaseEnvironment ["normal"] ["x86_64"])
      { files := [Example.fileCxx, Example.fileA] } _ Example.driverClang rfl rfl).2.2
      ((SourcesResolver.Create Example.driverCollaborators
        (Example.phaseEnvironment ["normal"] ["x86_64"])
        { files := [Example.fileCxx, Example.fileA] }).trace.take 10) []
      (Example.resolved "a.m") [] "a" Example.headermapInfo
      (searchPathsOf Example.driverCollaborators (Example.phaseEnvironment ["normal"] ["x86_64"]))
      Example.infoAfterCxx Example.environment "/src" (Example.compile "a.m" "a" "x86_64" [])
      (by decide) (by decide)⟩

end pbxbuild

namespace pbxbuild

/-! ## Script rules -/

/-- C13: for a resolved file whose matched build rule carries no tool, the loop
body appends exactly one invocation when the script body of the rule is
non-empty, the one `ScriptResolver::invocation` returns for the file path, the
rule, the environment of the pair and the working directory, and it appends no
invocation and logs no warning when the script body is empty.  In both cases
the shared `CompilationInfo` and the precompiled-header hash set are left as
they are, and the loop goes on with the next build file from the state the body
returns. -/
theorem C13_script_rule (X : Collaborators) (script : ScriptResolver)
    (clang : ClangResolver) (pe : PhaseEnvironment) (hm : HeadermapInfo) (sp : SearchPaths)
    (files : List (BuildFile × TypeResolvedFile)) (env : Environment) (st : PassState)
    (b : BuildFile) (file : TypeResolvedFile) (rule : BuildRule)
    (hfind : mapFind files b = some file)
    (hrule : pe.targetEnvironment.buildRules file = some rule)
    (htool : rule.tool = none) :
    (rule.script ≠ "" →
      (processBuildFile X script clang pe hm sp files env st b).invocations =
        st.invocations ++ [script.invocation file.filePath rule env
          pe.targetEnvironment.workingDirectory] ∧
      (processBuildFile X script clang pe hm sp files env st b).trace =
        st.trace ++ [Call.buildRulesResolve file,
          Call.scriptInvocation file.filePath rule env pe.targetEnvironment.workingDirectory
            (script.invocation file.filePath rule env
              pe.targetEnvironment.workingDirectory)]) ∧
    (rule.script = "" →
      (processBuildFile X script clang pe hm sp files env st b).invocations = st.invocations ∧
      (processBuildFile X script clang pe hm sp files env st b).trace =
        st.trace ++ [Call.buildRulesResolve file]) ∧
    (processBuildFile X script clang pe hm sp files env st b).compilationInfo =
      st.compilationInfo ∧
    (processBuildFile X script clang pe hm sp files env st b).precompiledHeaders =
      st.precompiledHeaders ∧
    (∀ rest : List BuildFile,
      (b :: rest).foldl (processBuildFile X script clang pe hm sp files env) st =
        rest.foldl (processBuildFile X script clang pe hm sp files env)
          (processBuildFile X script clang pe hm sp files env st b)) := by
  refine ⟨?_, ?_, ?_, ?_, fun rest => rfl⟩
  · intro hs
    unfold processBuildFile
    simp [hfind, hrule, htool, hs]
  · intro hs
    unfold processBuildFile
    simp [hfind, hrule, htool, hs]
  · unfold processBuildFile
    simp only [hfind, hrule, htool]
    split <;> rfl
  · unfold processBuildFile
    simp only [hfind, hrule, htool]
    split <;> rfl

/-- The shader of the example goes to the script strategy, and a file matched
by a rule without tool and script produces nothing. -/
theorem C13_script_rule_witness :
    (processBuildFile Example.collaborators Example.script Example.clang
        (Example.phaseEnvironment ["normal"] ["x86_64"]) Example.headermapInfo
        (searchPathsOf Example.collaborators (Example.phaseEnvironment ["normal"] ["x86_64"]))
        [(Example.fileG, Example.resolved "shader.glsl")] Example.environment
        Example.emptyState Example.fileG).invocations =
      Example.emptyState.invocations ++
        [Example.script.invocation "shader.glsl" { tool := none, script := "glslc" }
          Example.environment "/src"] ∧
    (processBuildFile Example.collaborators Example.script Example.clang
        Example.emptyRuleEnvironment Example.headermapInfo
        (searchPathsOf Example.collaborators Example.emptyRuleEnvironment)
        [(Example.fileT, Example.resolved "README")] Example.environment
        Example.emptyState Example.fileT).invocations = Example.emptyState.invocations ∧
    (processBuildFile Example.collaborators Example.script Example.clang
        Example.emptyRuleEnvironment Example.headermapInfo
        (searchPathsOf Example.collaborators Example.emptyRuleEnvironment)
        [(Example.fileT, Example.resolved "README")] Example.environment
        Example.emptyState Example.fileT).trace =
      Example.emptyState.trace ++ [Call.buildRulesResolve (Example.resolved "README")] :=
  ⟨((C13_script_rule Example.collaborators Example.script Example.clang
      (Example.phaseEnvironment ["normal"] ["x86_64"]) Example.headermapInfo
      (searchPathsOf Example.collaborators (Example.phaseEnvironment ["normal"] ["x86_64"]))
      [(Example.fileG, Example.resolved "shader.glsl")] Example.environment Example.emptyState
      Example.fileG (Example.resolved "shader.glsl") { tool := none, script := "glslc" }
      (by decide) (by decide) rfl).1 (by decide)).1,
    (C13_script_rule Example.collaborators Example.script Example.clang
      Example.emptyRuleEnvironment Example.headermapInfo
      (searchPathsOf Example.collaborators Example.emptyRuleEnvironment)
      [(Example.fileT, Example.resolved "README")] Example.environment Example.emptyState
      Example.fileT (Example.resolved "README") { tool := none, script := "" }
      (by decide) rfl rfl).2.1 rfl⟩

end pbxbuild
